import Mathlib

/-!
# Verification of the FarmGPS NMEA/Trimble sentence decoder

Shallow embedding of `FarmGPS.cpp` / `FarmGPS.h` (streaming GPS sentence
decoder).  Bytes are modelled as `Nat` values `< 256` (the value of the
`char` parameter on the wire).  The `float` fields of the class are
modelled as `ℚ` (exact arithmetic; the claims proved here do not depend
on rounding).  The fixed 20-byte `char term[20]` buffer is a
`List Nat` of length 20; out-of-bounds array accesses are modelled by
`Option`: `decode` returns `none` iff the C code would access the
buffer out of bounds.  `millis()` is modelled as a `clock` field that
the decoder reads but never changes.  The preprocessor configuration is
the one fixed by `FarmGPS.h`: `GPS_NO_STATS` is defined (so the
`good_sentences++` / `failed_checksum++` statements of `parse_term` are
compiled out, while the unguarded `encoded_characters++` of `decode`
remains), and the recognized sentence prefixes are `GPGGA`, `GPVTG`,
`GPXTE`, `ROXTE` (`GPRMC_TERM` is not defined).
-/

/-- Sentence types, `enum types{ GGA, VTG, XTE, XTE2, OTHER }` of `FarmGPS.h`. -/
inductive SentenceType where
  | GGA | VTG | XTE | XTE2 | OTHER
deriving DecidableEq, Repr

open SentenceType

/-- The decoder state: the data members of class `FarmGPS`.
`float` members are modelled as `ℚ`, `byte` members as `Nat` values
`< 256`, `int sum` as unbounded `Int` (16-bit overflow of `sum` is
undefined behaviour in the source and is idealized away), and the
20-byte `term` buffer as a `List Nat` of length 20.  `clock` models the
ambient `millis()` value.  The unused members `new_date` and
`new_*_fix` of the header are omitted. -/
structure GPSState where
  time : ℚ
  new_time : ℚ
  date : Nat
  latitude : ℚ
  new_latitude : ℚ
  longitude : ℚ
  new_longitude : ℚ
  altitude : ℚ
  new_altitude : ℚ
  speed : ℚ
  new_speed : ℚ
  course : ℚ
  new_course : ℚ
  xte : ℚ
  new_xte : ℚ
  quality : Int
  new_quality : Int
  last_GGA_fix : Nat
  last_VTG_fix : Nat
  last_XTE_fix : Nat
  new_GGA_data : Bool
  new_VTG_data : Bool
  new_XTE_data : Bool
  term : List Nat
  term_number : Nat
  term_offset : Nat
  parity : Nat
  checksum : Nat
  sum : Int
  is_checksum_term : Bool
  sentence_type : SentenceType
  encoded_characters : Nat
  good_sentences : Nat
  failed_checksum : Nat
  passed_checksum : Nat
  clock : Nat

/-- `#define GPGGA_TERM "GPGGA"` as a NUL-terminated byte string. -/
def GPGGA_TERM : List Nat := [71, 80, 71, 71, 65, 0]

/-- `#define GPVTG_TERM "GPVTG"` as a NUL-terminated byte string. -/
def GPVTG_TERM : List Nat := [71, 80, 86, 84, 71, 0]

/-- `#define GPXTE_TERM "GPXTE"` as a NUL-terminated byte string. -/
def GPXTE_TERM : List Nat := [71, 80, 88, 84, 69, 0]

/-- `#define ROXTE_TERM "ROXTE"` as a NUL-terminated byte string. -/
def ROXTE_TERM : List Nat := [82, 79, 88, 84, 69, 0]

/-- The C string denoted by a byte buffer: its bytes up to the first NUL. -/
def cstr (t : List Nat) : List Nat := t.takeWhile (fun b => b ≠ 0)

/-- `FarmGPS::strcmp` (FarmGPS.cpp lines 80-89): walks both strings while
bytes are equal; returns `true` on reaching a common NUL, `false` on the
first mismatch.  (Contrary to the name, it is an equality predicate.)
Both arguments are NUL-terminated byte lists; the catch-all case (a list
exhausted before a NUL) does not arise for proper C strings. -/
def strcmp : List Nat → List Nat → Bool
  | a :: as, b :: bs => if a = b then (if a = 0 then true else strcmp as bs) else false
  | _, _ => false

/-- `FarmGPS::hex_to_int` (FarmGPS.cpp lines 96-103): ASCII hex digit to
value; any other character yields `c - '0'` (possibly negative). -/
def hex_to_int (c : Nat) : Int :=
  if 65 ≤ c ∧ c ≤ 70 then (c : Int) - 65 + 10
  else if 97 ≤ c ∧ c ≤ 102 then (c : Int) - 97 + 10
  else (c : Int) - 48

/-- ASCII decimal digit test (`'0'..'9'`). -/
def isDigitByte (c : Nat) : Bool := 48 ≤ c ∧ c ≤ 57

/-- ASCII hex digit test (`0-9`, `A-F`, `a-f`). -/
def isHexDigit (c : Nat) : Bool :=
  (48 ≤ c ∧ c ≤ 57) ∨ (65 ≤ c ∧ c ≤ 70) ∨ (97 ≤ c ∧ c ≤ 102)

/-- C `isspace` bytes skipped by `atof`/`atoi`. -/
def isSpaceByte (c : Nat) : Bool := c = 32 ∨ (9 ≤ c ∧ c ≤ 13)

/-- Value of a digit string. -/
def digitsVal (l : List Nat) : Nat := l.foldl (fun a c => 10 * a + (c - 48)) 0

/-- Model of C `atof` over exact rationals: optional leading whitespace,
optional sign, integer digits, optional fraction, optional exponent. -/
def atof (l : List Nat) : ℚ :=
  let l1 := l.dropWhile isSpaceByte
  let sgn : ℚ := if l1.headD 0 = 45 then -1 else 1
  let l2 := if l1.headD 0 = 45 ∨ l1.headD 0 = 43 then l1.tail else l1
  let ip := l2.takeWhile isDigitByte
  let l3 := l2.dropWhile isDigitByte
  let frac : ℚ × List Nat :=
    if l3.headD 0 = 46 then
      let fp := l3.tail.takeWhile isDigitByte
      ((digitsVal fp : ℚ) / (10 : ℚ) ^ fp.length, l3.tail.dropWhile isDigitByte)
    else (0, l3)
  let l4 := frac.2
  let ex : Int :=
    if l4.headD 0 = 101 ∨ l4.headD 0 = 69 then
      let l5 := l4.tail
      let esgn : Int := if l5.headD 0 = 45 then -1 else 1
      let l6 := if l5.headD 0 = 45 ∨ l5.headD 0 = 43 then l5.tail else l5
      let ed := l6.takeWhile isDigitByte
      if ed = [] then 0 else esgn * (digitsVal ed : Int)
    else 0
  sgn * ((digitsVal ip : ℚ) + frac.1) * (10 : ℚ) ^ ex

/-- Model of C `atoi`: optional leading whitespace, optional sign, digits. -/
def atoi (l : List Nat) : Int :=
  let l1 := l.dropWhile isSpaceByte
  let sgn : Int := if l1.headD 0 = 45 then -1 else 1
  let l2 := if l1.headD 0 = 45 ∨ l1.headD 0 = 43 then l1.tail else l1
  sgn * (digitsVal (l2.takeWhile isDigitByte) : Int)

/-- `FarmGPS::parse_decimal` (FarmGPS.cpp lines 64-67): `atof`. -/
def parse_decimal (l : List Nat) : ℚ := atof l

/-- Truncation toward zero of a rational, as C float-to-int conversion. -/
def truncQ (q : ℚ) : Int := if 0 ≤ q then ⌊q⌋ else -⌊-q⌋

/-- `FarmGPS::parse_degrees` (FarmGPS.cpp lines 70-77): ddmm.mmm to
decimal degrees, `_left = _f / 100` (int truncation),
`_right = _f - _left * 100`, result `_left + _right / 60`. -/
def parse_degrees (l : List Nat) : ℚ :=
  let f := atof l
  let left : Int := truncQ (f / 100)
  let right : ℚ := f - (left : ℚ) * 100
  (left : ℚ) + right / 60

/-- `FarmGPS::parse_integer` (FarmGPS.cpp lines 90-93): `atoi`. -/
def parse_integer (l : List Nat) : Int := atoi l

/-- The field-extraction switch of `FarmGPS::parse_term`
(FarmGPS.cpp lines 186-242): dispatch on `(sentence_type, term_number)`
and update exactly one shadow field.  Reached only when `term[0] ≠ 0`. -/
def extractField (s : GPSState) : GPSState :=
  match s.sentence_type with
  | GGA =>
    if s.term_number = 1 then { s with new_time := parse_decimal (cstr s.term) }
    else if s.term_number = 2 then { s with new_latitude := parse_degrees (cstr s.term) }
    else if s.term_number = 3 then
      (if s.term.getD 0 0 = 83 then { s with new_latitude := -s.new_latitude } else s)
    else if s.term_number = 4 then { s with new_longitude := parse_degrees (cstr s.term) }
    else if s.term_number = 5 then
      (if s.term.getD 0 0 = 87 then { s with new_longitude := -s.new_longitude } else s)
    else if s.term_number = 6 then { s with new_quality := parse_integer (cstr s.term) }
    else if s.term_number = 9 then { s with new_altitude := parse_decimal (cstr s.term) }
    else s
  | VTG =>
    if s.term_number = 1 then { s with new_course := parse_decimal (cstr s.term) }
    else if s.term_number = 5 then { s with new_speed := parse_decimal (cstr s.term) }
    else s
  | XTE =>
    if s.term_number = 3 then { s with new_xte := parse_decimal (cstr s.term) } else s
  | XTE2 =>
    if s.term_number = 1 then { s with new_xte := parse_decimal (cstr s.term) } else s
  | OTHER => s

/-- The term-0 classification chain of `FarmGPS::parse_term`
(FarmGPS.cpp lines 153-182): the `strcmp` ladder over the recognized
sentence prefixes.  The `GPRMC_TERM` arm is compiled out
(`GPRMC_TERM` is not defined in FarmGPS.h). -/
def classifyTerm0 (t : List Nat) : SentenceType :=
  if strcmp t GPGGA_TERM then GGA
  else if strcmp t GPVTG_TERM then VTG
  else if strcmp t GPXTE_TERM then XTE
  else if strcmp t ROXTE_TERM then XTE2
  else OTHER

/-- The value `FarmGPS::parse_term` stores into the `byte checksum`
member on a checksum term (FarmGPS.cpp lines 107-115): for `XTE2` a
copy of `parity` (already checked at frame level), otherwise
`16 * hex_to_int(term[0]) + hex_to_int(term[1])` truncated to a byte
(the C conversion of `int` to `unsigned char` is reduction mod 256). -/
def expectedChecksum (s : GPSState) : Nat :=
  if s.sentence_type = XTE2 then s.parity
  else ((16 * hex_to_int (s.term.getD 0 0) + hex_to_int (s.term.getD 1 0)) % 256).toNat

/-- `FarmGPS::parse_term` (FarmGPS.cpp lines 106-245), built on
`expectedChecksum` above for the value stored into `checksum`.  With
`GPS_NO_STATS` defined (FarmGPS.h line 48) the statistics increments in
this function are compiled out.  On a matching checksum term the shadow
fields of the current sentence type are committed, `millis()` is
stamped and the new-data flag is set. -/
def parse_term (s : GPSState) : Bool × GPSState :=
  if s.is_checksum_term then
    let s1 : GPSState := { s with checksum := expectedChecksum s }
    if s1.checksum = s1.parity then
      match s1.sentence_type with
      | GGA => (true, { s1 with
          altitude := s1.new_altitude, time := s1.new_time,
          latitude := s1.new_latitude, longitude := s1.new_longitude,
          quality := s1.new_quality, last_GGA_fix := s1.clock,
          new_GGA_data := true })
      | VTG => (true, { s1 with
          course := s1.new_course, speed := s1.new_speed,
          last_VTG_fix := s1.clock, new_VTG_data := true })
      | XTE => (true, { s1 with
          xte := s1.new_xte, last_XTE_fix := s1.clock, new_XTE_data := true })
      | XTE2 => (true, { s1 with
          xte := s1.new_xte, last_XTE_fix := s1.clock, new_XTE_data := true })
      | OTHER => (true, s1)
    else (false, s1)
  else if s.term_number = 0 then
    (false, { s with sentence_type := classifyTerm0 s.term })
  else if s.term.getD 0 0 ≠ 0 then (false, extractField s)
  else (false, s)

/-- Read of `term[i]` with a C-style (possibly negative) index, `none`
when the access is out of the bounds of the buffer. -/
def rdTerm (t : List Nat) (i : Int) : Option Nat :=
  if 0 ≤ i ∧ i < (t.length : Int) then some (t.getD i.toNat 0) else none

/-- The `default:` (ordinary character) branch of `FarmGPS::decode`
(FarmGPS.cpp lines 322-328): append to `term` when
`term_offset < sizeof(term) - 1 = 19`, XOR into `parity` unless inside
the checksum term, always add to `sum`. -/
def ordinaryStep (s : GPSState) (c : Nat) : Bool × GPSState :=
  let s1 : GPSState :=
    if s.term_offset < 19 then
      { s with term := s.term.set s.term_offset c, term_offset := s.term_offset + 1 }
    else s
  let s2 : GPSState :=
    if s1.is_checksum_term then s1 else { s1 with parity := s1.parity ^^^ c }
  (false, { s2 with sum := s2.sum + (c : Int) })

/-- The per-term reset at the end of the terminator and binary-frame
branches of `FarmGPS::decode`: `term_number++; term_offset = 0;`
(`term_number` is a `byte`, hence the wrap at 256). -/
def nextTerm (s : GPSState) : GPSState :=
  { s with term_number := (s.term_number + 1) % 256, term_offset := 0 }

/-- The term-terminator branch of `FarmGPS::decode` (FarmGPS.cpp lines
282-296), assuming the `term[term_offset] = '\0'` write is in bounds:
comma is XORed into `parity` first, the byte is added to `sum`, the
term is NUL-terminated and handed to `parse_term`, then the per-term
state is reset and `is_checksum_term` records whether this was `*`. -/
def terminatorStep (s : GPSState) (c : Nat) : Bool × GPSState :=
  let s1 : GPSState := if c = 44 then { s with parity := s.parity ^^^ c } else s
  let s2 : GPSState := { s1 with sum := s1.sum + (c : Int),
                                 term := s1.term.set s1.term_offset 0 }
  let r := parse_term s2
  (r.1, { nextTerm r.2 with is_checksum_term := c = 42 })

/-- The matched-trailer path of the `case 3:` branch of
`FarmGPS::decode` (FarmGPS.cpp lines 308-316), entered after the trailer
subtraction: truncate the term to drop the trailer, run `parse_term`
for the payload, run it again with `is_checksum_term` forced true, and
reset the per-term state. -/
def trimbleCommit (s : GPSState) : Bool × GPSState :=
  let s2 : GPSState := { s with term := s.term.set (s.term_offset - 3) 0 }
  let r1 := parse_term s2
  let r2 := parse_term { r1.2 with is_checksum_term := true }
  (r2.1, nextTerm r2.2)

/-- The unconditional `encoded_characters++` at the entry of
`FarmGPS::decode` (FarmGPS.cpp line 256), which is outside any
`GPS_NO_STATS` guard in the source. -/
def countChar (s : GPSState) : GPSState :=
  { s with encoded_characters := s.encoded_characters + 1 }

/-- `FarmGPS::decode` (FarmGPS.cpp lines 252-331); the unconditional
`encoded_characters++` at its entry is `countChar`.  Returns `none` iff
the C code would access `term` out of bounds (the unguarded
`term[term_offset - k]` reads of the `case 3:` branch, and the
`term[term_offset]` NUL write of the terminator branch). -/
def decode (s : GPSState) (c : Nat) : Option (Bool × GPSState) :=
  if c = 191 then
    some (false, { countChar s with term_number := 0, term_offset := 0, sum := 0 })
  else if c = 36 ∨ c = 64 then
    some (false, { countChar s with term_number := 0, term_offset := 0, parity := 0,
                                    sum := s.sum + (c : Int), sentence_type := OTHER,
                                    is_checksum_term := false })
  else if c = 20 ∨ c = 0 ∨ c = 32 then
    some (false, { countChar s with sum := s.sum + (c : Int) })
  else if c = 44 ∨ c = 58 ∨ c = 42 ∨ c = 13 ∨ c = 10 then
    if s.term_offset < s.term.length then some (terminatorStep (countChar s) c) else none
  else if c = 3 then
    match rdTerm s.term ((s.term_offset : Int) - 1) with
    | none => none
    | some p1 =>
      if p1 = 16 ∧ s.is_checksum_term = false then
        match rdTerm s.term ((s.term_offset : Int) - 2),
              rdTerm s.term ((s.term_offset : Int) - 3) with
        | some p2, some p3 =>
          if s.sum - (p1 : Int) - (p2 : Int) - (p3 : Int) - (p2 : Int) - 256 * (p3 : Int) = 0 then
            some (trimbleCommit { countChar s with
              sum := s.sum - (p1 : Int) - (p2 : Int) - (p3 : Int) })
          else
            some (false, nextTerm { countChar s with
              sum := s.sum - (p1 : Int) - (p2 : Int) - (p3 : Int) })
        | _, _ => none
      else some (ordinaryStep (countChar s) c)
  else some (ordinaryStep (countChar s) c)

/-- Feed a byte stream; collects the per-byte boolean results. -/
def feedAll (s : GPSState) : List Nat → Option (List Bool × GPSState)
  | [] => some ([], s)
  | c :: cs =>
    match decode s c with
    | none => none
    | some (v, s1) =>
      match feedAll s1 cs with
      | none => none
      | some (vs, s2) => some (v :: vs, s2)

/-- `FarmGPS::got_new_GGA_data` (FarmGPS.h lines 246-250): returns the
flag and clears it. -/
def got_new_GGA_data (s : GPSState) : Bool × GPSState :=
  (s.new_GGA_data, { s with new_GGA_data := false })

/-- `FarmGPS::got_new_VTG_data` (FarmGPS.h lines 253-257). -/
def got_new_VTG_data (s : GPSState) : Bool × GPSState :=
  (s.new_VTG_data, { s with new_VTG_data := false })

/-- `FarmGPS::got_new_XTE_data` (FarmGPS.h lines 260-264). -/
def got_new_XTE_data (s : GPSState) : Bool × GPSState :=
  (s.new_XTE_data, { s with new_XTE_data := false })

/-- `GPS_INVALID_FLOAT = 999999.9`. -/
def GPS_INVALID_FLOAT : ℚ := 9999999 / 10

/-- The constructor `FarmGPS::FarmGPS` (FarmGPS.cpp lines 27-57).  The
members the constructor leaves uninitialized under the header's
configuration (the shadow `new_*` fields, the new-data flags, `term[1..19]`
and — because `GPS_NO_STATS` is defined — the statistics counters) are
set to zero/false here; the theorems below use them only through
differences or after they are overwritten. -/
def initState : GPSState where
  time := GPS_INVALID_FLOAT
  new_time := 0
  date := 4294967295
  latitude := GPS_INVALID_FLOAT
  new_latitude := 0
  longitude := GPS_INVALID_FLOAT
  new_longitude := 0
  altitude := GPS_INVALID_FLOAT
  new_altitude := 0
  speed := GPS_INVALID_FLOAT
  new_speed := 0
  course := GPS_INVALID_FLOAT
  new_course := 0
  xte := GPS_INVALID_FLOAT
  new_xte := 0
  quality := 0
  new_quality := 0
  last_GGA_fix := 0
  last_VTG_fix := 0
  last_XTE_fix := 0
  new_GGA_data := false
  new_VTG_data := false
  new_XTE_data := false
  term := List.replicate 20 0
  term_number := 0
  term_offset := 0
  parity := 0
  checksum := 0
  sum := 0
  is_checksum_term := false
  sentence_type := OTHER
  encoded_characters := 0
  good_sentences := 0
  failed_checksum := 0
  passed_checksum := 0
  clock := 0

/-- The published outputs named by the spec: the committed fix fields,
the three last-fix timestamps and the three new-data flags.  (Shadow
fields, parsing state and counters are not published.) -/
structure Pub where
  time : ℚ
  date : Nat
  latitude : ℚ
  longitude : ℚ
  altitude : ℚ
  quality : Int
  course : ℚ
  speed : ℚ
  xte : ℚ
  last_GGA_fix : Nat
  last_VTG_fix : Nat
  last_XTE_fix : Nat
  new_GGA_data : Bool
  new_VTG_data : Bool
  new_XTE_data : Bool
deriving DecidableEq, Repr

/-- Projection of the decoder state onto its published outputs. -/
def pub (s : GPSState) : Pub where
  time := s.time
  date := s.date
  latitude := s.latitude
  longitude := s.longitude
  altitude := s.altitude
  quality := s.quality
  course := s.course
  speed := s.speed
  xte := s.xte
  last_GGA_fix := s.last_GGA_fix
  last_VTG_fix := s.last_VTG_fix
  last_XTE_fix := s.last_XTE_fix
  new_GGA_data := s.new_GGA_data
  new_VTG_data := s.new_VTG_data
  new_XTE_data := s.new_XTE_data

/-- Payload bytes of an ASCII sentence body: byte values that reach the
comma-terminator or ordinary-character branches of `decode` (everything
except the frame markers, the bitbucket bytes, the non-comma
terminators and the binary bytes 191 and 3). -/
def bodyOk (c : Nat) : Prop :=
  c < 256 ∧ c ≠ 191 ∧ c ≠ 36 ∧ c ≠ 64 ∧ c ≠ 20 ∧ c ≠ 0 ∧ c ≠ 32 ∧
  c ≠ 58 ∧ c ≠ 42 ∧ c ≠ 13 ∧ c ≠ 10 ∧ c ≠ 3

instance (c : Nat) : Decidable (bodyOk c) := by
  unfold bodyOk; infer_instance

/-- XOR of a byte list (the NMEA checksum domain fold). -/
def xorAll (l : List Nat) : Nat := l.foldl (fun a c => a ^^^ c) 0

/-! ## Concrete test data (byte lists of sentences from the spec) -/

/-- Body of `$GPGGA,123519,4807.038,N,01131.000,E,1,08,0.9,545.4,M,46.9,M,,*47`
between the `$` and the `*`. -/
def ggaBodyN : List Nat :=
  [71, 80, 71, 71, 65, 44, 49, 50, 51, 53, 49, 57, 44, 52, 56, 48, 55, 46, 48,
   51, 56, 44, 78, 44, 48, 49, 49, 51, 49, 46, 48, 48, 48, 44, 69, 44, 49, 44,
   48, 56, 44, 48, 46, 57, 44, 53, 52, 53, 46, 52, 44, 77, 44, 52, 54, 46, 57,
   44, 77, 44, 44]

/-- The same body with the hemisphere letter `N` replaced by `S`. -/
def ggaBodyS : List Nat :=
  [71, 80, 71, 71, 65, 44, 49, 50, 51, 53, 49, 57, 44, 52, 56, 48, 55, 46, 48,
   51, 56, 44, 83, 44, 48, 49, 49, 51, 49, 46, 48, 48, 48, 44, 69, 44, 49, 44,
   48, 56, 44, 48, 46, 57, 44, 53, 52, 53, 46, 52, 44, 77, 44, 52, 54, 46, 57,
   44, 77, 44, 44]

/-- The full northern-hemisphere sentence `...*47\r\n`. -/
def ggaSentenceN : List Nat := 36 :: ggaBodyN ++ [42, 52, 55, 13, 10]

/-- The full southern-hemisphere sentence `...*5A\r\n` (checksum recomputed). -/
def ggaSentenceS : List Nat := 36 :: ggaBodyS ++ [42, 53, 65, 13, 10]

/-- `$ROXTE,1*00\r` — an ASCII sentence classified as the binary `XTE2`
variant, carrying a checksum token `00` that does not match its parity. -/
def roxteSentence : List Nat := [36, 82, 79, 88, 84, 69, 44, 49, 42, 48, 48, 13]

/-- `$A*41\r` — a minimal sentence whose checksum token `41` matches the
parity of its one-byte body `A`. -/
def miniSentence : List Nat := [36, 65, 42, 52, 49, 13]

/-- A state poised at a binary (Trimble) frame trailer: the last three
buffered bytes are `0, 0, 16`, the running `sum` is 16, and the frame
was classified `XTE2`. -/
def trimbleState : GPSState :=
  { initState with
    term := [0, 0, 16] ++ List.replicate 17 0,
    term_offset := 3,
    term_number := 1,
    sum := 16,
    sentence_type := XTE2 }

/-- A state holding the completed term-0 token `GPXTE` (NUL-terminated)
in its buffer. -/
def term0State : GPSState :=
  { initState with term := [71, 80, 88, 84, 69, 0] ++ List.replicate 14 0 }

/-- A state whose term buffer write cursor sits at the capacity bound. -/
def fullBufState : GPSState := { initState with term_offset := 19 }

/-- Expected per-byte outputs of feeding `ggaSentenceN` (or
`ggaSentenceS`): `false` for every byte except the `\r` that ends the
checksum term, where `parse_term` commits; the trailing `\n` yields
`false` again. -/
def ggaOuts : List Bool := List.replicate 65 false ++ [true, false]

/-- Expected published outputs after feeding `ggaSentenceN` from the
initial state: the committed GGA fields hold the parses of the raw term
bytes (`123519`, `4807.038`, `01131.000`, `1`, `545.4`), the GGA flag is
set, and every non-GGA field keeps its initial value. -/
def ggaPubN : Pub where
  time := parse_decimal [49, 50, 51, 53, 49, 57]
  date := 4294967295
  latitude := parse_degrees [52, 56, 48, 55, 46, 48, 51, 56]
  longitude := parse_degrees [48, 49, 49, 51, 49, 46, 48, 48, 48]
  altitude := parse_decimal [53, 52, 53, 46, 52]
  quality := parse_integer [49]
  course := GPS_INVALID_FLOAT
  speed := GPS_INVALID_FLOAT
  xte := GPS_INVALID_FLOAT
  last_GGA_fix := 0
  last_VTG_fix := 0
  last_XTE_fix := 0
  new_GGA_data := true
  new_VTG_data := false
  new_XTE_data := false

/-! ## Helper lemmas -/

theorem xor_lt_256 {a b : Nat} (ha : a < 256) (hb : b < 256) : a ^^^ b < 256 := by
  have h1 : a < 2 ^ 8 := Nat.lt_of_lt_of_le ha (by norm_num)
  have h2 : b < 2 ^ 8 := Nat.lt_of_lt_of_le hb (by norm_num)
  have h3 := Nat.bitwise_lt_two_pow (f := bne) h1 h2
  exact Nat.lt_of_lt_of_le h3 (by norm_num)

theorem foldl_xor_lt_256 (l : List Nat) (hl : ∀ b ∈ l, b < 256) :
    ∀ p : Nat, p < 256 → l.foldl (fun a c => a ^^^ c) p < 256 := by
  induction l with
  | nil => intro p hp; exact hp
  | cons c cs ih =>
    intro p hp
    rw [List.foldl_cons]
    exact ih (fun b hb => hl b (List.mem_cons_of_mem _ hb))
      _ (xor_lt_256 hp (hl c (List.mem_cons_self _ _)))

theorem pub_extractField (s : GPSState) : pub (extractField s) = pub s := by
  unfold extractField
  split <;> first | rfl | (split_ifs <;> rfl)

/-- `extractField` writes only shadow fields: all parsing state, clock
and counters are untouched. -/
theorem extractField_proj (s : GPSState) :
    (extractField s).parity = s.parity ∧
    (extractField s).term = s.term ∧
    (extractField s).term_offset = s.term_offset ∧
    (extractField s).term_number = s.term_number ∧
    (extractField s).is_checksum_term = s.is_checksum_term ∧
    (extractField s).sum = s.sum ∧
    (extractField s).clock = s.clock ∧
    (extractField s).encoded_characters = s.encoded_characters ∧
    (extractField s).good_sentences = s.good_sentences ∧
    (extractField s).failed_checksum = s.failed_checksum ∧
    (extractField s).passed_checksum = s.passed_checksum ∧
    (extractField s).sentence_type = s.sentence_type := by
  unfold extractField
  split <;>
    first
      | exact ⟨rfl, rfl, rfl, rfl, rfl, rfl, rfl, rfl, rfl, rfl, rfl, rfl⟩
      | (split_ifs <;> exact ⟨rfl, rfl, rfl, rfl, rfl, rfl, rfl, rfl, rfl, rfl, rfl, rfl⟩)

/-- On a non-checksum term, `parse_term` returns `false` and leaves the
published outputs, the parsing accumulators, the buffer and the
counters unchanged (it only writes `sentence_type` or a shadow field). -/
theorem parse_term_not_ict (s : GPSState) (h : s.is_checksum_term = false) :
    (parse_term s).1 = false ∧
    pub (parse_term s).2 = pub s ∧
    (parse_term s).2.parity = s.parity ∧
    (parse_term s).2.term = s.term ∧
    (parse_term s).2.term_offset = s.term_offset ∧
    (parse_term s).2.term_number = s.term_number ∧
    (parse_term s).2.is_checksum_term = false ∧
    (parse_term s).2.sum = s.sum ∧
    (parse_term s).2.clock = s.clock ∧
    (parse_term s).2.encoded_characters = s.encoded_characters ∧
    (parse_term s).2.good_sentences = s.good_sentences ∧
    (parse_term s).2.failed_checksum = s.failed_checksum ∧
    (parse_term s).2.passed_checksum = s.passed_checksum := by
  obtain ⟨e1, e2, e3, e4, e5, e6, e7, e8, e9, e10, e11, e12⟩ := extractField_proj s
  unfold parse_term
  rw [if_neg (by simp [h])]
  split_ifs with h1 h2
  · exact ⟨rfl, rfl, rfl, rfl, rfl, rfl, h, rfl, rfl, rfl, rfl, rfl, rfl⟩
  · exact ⟨rfl, pub_extractField s, e1, e2, e3, e4, e5.trans h, e6, e7, e8, e9, e10, e11⟩
  · exact ⟨rfl, rfl, rfl, rfl, rfl, rfl, h, rfl, rfl, rfl, rfl, rfl, rfl⟩

/-- On a non-checksum term, `parse_term` preserves `sentence_type`
except at term 0, where it classifies. -/
theorem parse_term_sentence_type (s : GPSState) (h : s.is_checksum_term = false)
    (h0 : s.term_number ≠ 0) : (parse_term s).2.sentence_type = s.sentence_type := by
  unfold parse_term
  rw [if_neg (by simp [h]), if_neg h0]
  split_ifs
  · exact (extractField_proj s).2.2.2.2.2.2.2.2.2.2.2
  · rfl

/-- On a checksum term whose expected value matches `parity`,
`parse_term` reports success. -/
theorem parse_term_ict_match (s : GPSState) (h : s.is_checksum_term = true)
    (hm : expectedChecksum s = s.parity) : (parse_term s).1 = true := by
  unfold parse_term
  rw [if_pos h]
  have hm' : ({ s with checksum := expectedChecksum s } : GPSState).checksum =
      ({ s with checksum := expectedChecksum s } : GPSState).parity := hm
  rw [if_pos hm']
  split <;> rfl

/-- On a checksum term whose expected value does not match `parity`,
`parse_term` reports failure and only records the expected value in
`checksum`. -/
theorem parse_term_ict_mismatch (s : GPSState) (h : s.is_checksum_term = true)
    (hm : expectedChecksum s ≠ s.parity) :
    parse_term s = (false, { s with checksum := expectedChecksum s }) := by
  unfold parse_term
  rw [if_pos h]
  have hm' : ¬ ({ s with checksum := expectedChecksum s } : GPSState).checksum =
      ({ s with checksum := expectedChecksum s } : GPSState).parity := hm
  rw [if_neg hm']

/-- The ordinary-character branch writes only `term`, `term_offset`,
`parity` and `sum`, exactly as FarmGPS.cpp lines 322-328 describe. -/
theorem ordinaryStep_proj (s : GPSState) (c : Nat) :
    (ordinaryStep s c).1 = false ∧
    (ordinaryStep s c).2.term =
      (if s.term_offset < 19 then s.term.set s.term_offset c else s.term) ∧
    (ordinaryStep s c).2.term_offset =
      (if s.term_offset < 19 then s.term_offset + 1 else s.term_offset) ∧
    (ordinaryStep s c).2.parity =
      (if s.is_checksum_term then s.parity else s.parity ^^^ c) ∧
    (ordinaryStep s c).2.sum = s.sum + (c : Int) ∧
    (ordinaryStep s c).2.is_checksum_term = s.is_checksum_term ∧
    (ordinaryStep s c).2.term_number = s.term_number ∧
    (ordinaryStep s c).2.sentence_type = s.sentence_type ∧
    pub (ordinaryStep s c).2 = pub s ∧
    (ordinaryStep s c).2.clock = s.clock ∧
    (ordinaryStep s c).2.encoded_characters = s.encoded_characters ∧
    (ordinaryStep s c).2.good_sentences = s.good_sentences ∧
    (ordinaryStep s c).2.failed_checksum = s.failed_checksum ∧
    (ordinaryStep s c).2.passed_checksum = s.passed_checksum := by
  simp only [ordinaryStep]
  split_ifs with h1 h2 h3 <;>
    refine ⟨?_, ?_, ?_, ?_, ?_, ?_, ?_, ?_, ?_, ?_, ?_, ?_, ?_, ?_⟩ <;>
      first | rfl | trivial

/-- `decode` on a sentence-start marker `$`/`@`. -/
theorem decode_start (s : GPSState) (c : Nat) (hc : c = 36 ∨ c = 64) :
    ∃ t, decode s c = some (false, t) ∧
      t.parity = 0 ∧ t.term_offset = 0 ∧ t.term_number = 0 ∧
      t.is_checksum_term = false ∧ t.sentence_type = OTHER ∧
      t.term = s.term ∧ pub t = pub s ∧ t.clock = s.clock ∧
      t.encoded_characters = s.encoded_characters + 1 ∧
      t.good_sentences = s.good_sentences ∧
      t.failed_checksum = s.failed_checksum ∧
      t.passed_checksum = s.passed_checksum := by
  rcases hc with rfl | rfl <;>
    exact ⟨_, rfl, rfl, rfl, rfl, rfl, rfl, rfl, rfl, rfl, rfl, rfl, rfl, rfl⟩

/-- `decode` on an ordinary (non-special) byte other than comma reduces
to the ordinary-character branch. -/
theorem decode_ordinary (s : GPSState) (c : Nat) (hb : bodyOk c) (h44 : c ≠ 44) :
    decode s c = some (ordinaryStep (countChar s) c) := by
  obtain ⟨hlt, h191, h36, h64, h20, h0, h32, h58, h42, h13, h10, h3⟩ := hb
  unfold decode
  rw [if_neg h191, if_neg (by omega), if_neg (by omega), if_neg (by omega), if_neg h3]

/-- `decode` on a comma reduces to the terminator branch (in bounds). -/
theorem decode_comma (s : GPSState) (hoff : s.term_offset < s.term.length) :
    decode s 44 = some (terminatorStep (countChar s) 44) := by
  unfold decode
  rw [if_neg (by norm_num : ¬ (44 = 191)),
      if_neg (by norm_num : ¬ (44 = 36 ∨ 44 = 64)),
      if_neg (by norm_num : ¬ (44 = 20 ∨ 44 = 0 ∨ 44 = 32)),
      if_pos (by norm_num : (44 = 44 ∨ 44 = 58 ∨ 44 = 42 ∨ 44 = 13 ∨ 44 = 10)),
      if_pos hoff]

/-- `decode` on `:`, `*`, CR or LF reduces to the terminator branch (in
bounds). -/
theorem decode_terminator (s : GPSState) (c : Nat)
    (hc : c = 58 ∨ c = 42 ∨ c = 13 ∨ c = 10)
    (hoff : s.term_offset < s.term.length) :
    decode s c = some (terminatorStep (countChar s) c) := by
  rcases hc with rfl | rfl | rfl | rfl <;>
    · unfold decode
      rw [if_neg (by norm_num), if_neg (by norm_num), if_neg (by norm_num),
          if_pos (by norm_num), if_pos hoff]

theorem feedAll_cons_some {s : GPSState} {c : Nat} {v : Bool} {s1 : GPSState}
    {cs : List Nat} {vs : List Bool} {s2 : GPSState}
    (hd : decode s c = some (v, s1)) (ht : feedAll s1 cs = some (vs, s2)) :
    feedAll s (c :: cs) = some (v :: vs, s2) := by
  simp [feedAll, hd, ht]

theorem feedAll_append_some {s : GPSState} {l1 l2 : List Nat} {v1 v2 : List Bool}
    {s1 s2 : GPSState}
    (h1 : feedAll s l1 = some (v1, s1)) (h2 : feedAll s1 l2 = some (v2, s2)) :
    feedAll s (l1 ++ l2) = some (v1 ++ v2, s2) := by
  induction l1 generalizing s v1 with
  | nil =>
    simp only [feedAll, Option.some.injEq, Prod.mk.injEq] at h1
    obtain ⟨hv, hs⟩ := h1
    subst hv; subst hs
    simpa using h2
  | cons c cs ih =>
    rw [List.cons_append]
    unfold feedAll at h1
    cases hd : decode s c with
    | none => simp [hd] at h1
    | some p =>
      obtain ⟨v, t⟩ := p
      simp only [hd] at h1
      cases hm : feedAll t cs with
      | none => simp [hm] at h1
      | some q =>
        obtain ⟨vs, u⟩ := q
        simp only [hm, Option.some.injEq, Prod.mk.injEq] at h1
        obtain ⟨hv, hs⟩ := h1
        subst hs
        rw [← hv]
        simpa using feedAll_cons_some hd (ih hm)

/-- The terminator branch on a completed non-checksum term: result is
`false`, the freshly NUL-terminated buffer survives, per-term state is
reset and the published outputs, counters and clock are untouched. -/
theorem terminatorStep_proj (s : GPSState) (c : Nat)
    (hict : s.is_checksum_term = false) :
    (terminatorStep s c).1 = false ∧
    (terminatorStep s c).2.is_checksum_term = decide (c = 42) ∧
    (terminatorStep s c).2.term = s.term.set s.term_offset 0 ∧
    (terminatorStep s c).2.term_offset = 0 ∧
    (terminatorStep s c).2.parity = (if c = 44 then s.parity ^^^ 44 else s.parity) ∧
    pub (terminatorStep s c).2 = pub s ∧
    (terminatorStep s c).2.clock = s.clock ∧
    (terminatorStep s c).2.encoded_characters = s.encoded_characters ∧
    (terminatorStep s c).2.good_sentences = s.good_sentences ∧
    (terminatorStep s c).2.failed_checksum = s.failed_checksum ∧
    (terminatorStep s c).2.passed_checksum = s.passed_checksum := by
  by_cases h44 : c = 44
  · subst h44
    obtain ⟨q1, q2, q3, q4, q5, q6, q7, q8, q9, q10, q11, q12, q13⟩ :=
      parse_term_not_ict
        { s with parity := s.parity ^^^ 44, sum := s.sum + ((44 : Nat) : Int),
                 term := s.term.set s.term_offset 0 } hict
    refine ⟨?_, ?_, ?_, ?_, ?_, ?_, ?_, ?_, ?_, ?_, ?_⟩ <;>
      simp only [terminatorStep, if_pos (Eq.refl (44 : Nat)), ite_true] <;>
      first
        | rfl
        | exact q1
        | exact q2
        | exact q3
        | exact q4
        | exact q9
        | exact q10
        | exact q11
        | exact q12
        | exact q13
  · obtain ⟨q1, q2, q3, q4, q5, q6, q7, q8, q9, q10, q11, q12, q13⟩ :=
      parse_term_not_ict
        { s with sum := s.sum + (c : Int), term := s.term.set s.term_offset 0 } hict
    refine ⟨?_, ?_, ?_, ?_, ?_, ?_, ?_, ?_, ?_, ?_, ?_⟩ <;>
      simp only [terminatorStep, if_neg h44] <;>
      first
        | rfl
        | exact q1
        | exact q2
        | exact q3
        | exact q4
        | exact q9
        | exact q10
        | exact q11
        | exact q12
        | exact q13

/-- Running the decoder over the body of an ASCII sentence (commas and
ordinary bytes): every step returns `false`, `is_checksum_term` stays
false, the parity accumulator XORs every body byte in, and the
published outputs are untouched. -/
theorem feed_body (body : List Nat) :
    ∀ s : GPSState, (∀ b ∈ body, bodyOk b) →
    s.is_checksum_term = false → s.term.length = 20 → s.term_offset < 20 →
    ∃ s1, feedAll s body = some (List.replicate body.length false, s1) ∧
      s1.is_checksum_term = false ∧ s1.term.length = 20 ∧ s1.term_offset < 20 ∧
      s1.parity = body.foldl (fun a c => a ^^^ c) s.parity ∧
      pub s1 = pub s ∧ s1.clock = s.clock := by
  induction body with
  | nil =>
    intro s hmem hict hlen hoff
    exact ⟨s, rfl, hict, hlen, hoff, rfl, rfl, rfl⟩
  | cons c cs ih =>
    intro s hmem hict hlen hoff
    have hbc : bodyOk c := hmem c (List.mem_cons_self _ _)
    by_cases h44 : c = 44
    · subst h44
      have hoff2 : s.term_offset < s.term.length := by rw [hlen]; exact hoff
      have hd := decode_comma s hoff2
      obtain ⟨t1, t2, t3, t4, t5, t6, t7, t8, t9, t10, t11⟩ :=
        terminatorStep_proj (countChar s) 44 hict
      set u : GPSState := (terminatorStep (countChar s) 44).2 with hu
      have hpair : terminatorStep (countChar s) 44 = (false, u) := by
        rw [← t1, hu]
      have hdu : decode s 44 = some (false, u) := by rw [hd, hpair]
      have e_ict : u.is_checksum_term = false := t2
      have e_term : u.term = s.term.set s.term_offset 0 := t3
      have e_off : u.term_offset = 0 := t4
      have e_par : u.parity = s.parity ^^^ 44 := t5
      have e_pub : pub u = pub s := t6
      have e_clock : u.clock = s.clock := t7
      have hulen : u.term.length = 20 := by rw [e_term, List.length_set]; exact hlen
      have huoff : u.term_offset < 20 := by rw [e_off]; omega
      obtain ⟨s1, hfeed, i1, i2, i3, i4, i5, i6⟩ :=
        ih u (fun b hb => hmem b (List.mem_cons_of_mem _ hb)) e_ict hulen huoff
      refine ⟨s1, ?_, i1, i2, i3, ?_, ?_, ?_⟩
      · rw [List.length_cons, List.replicate_succ]
        exact feedAll_cons_some hdu hfeed
      · rw [List.foldl_cons, i4, e_par]
      · rw [i5, e_pub]
      · rw [i6, e_clock]
    · have hd := decode_ordinary s c hbc h44
      obtain ⟨t1, t2, t3, t4, t5, t6, t7, t8, t9, t10, t11, t12, t13, t14⟩ :=
        ordinaryStep_proj (countChar s) c
      set u : GPSState := (ordinaryStep (countChar s) c).2 with hu
      have hpair : ordinaryStep (countChar s) c = (false, u) := by
        rw [← t1, hu]
      have hdu : decode s c = some (false, u) := by rw [hd, hpair]
      have e_term : u.term =
          (if s.term_offset < 19 then s.term.set s.term_offset c else s.term) := t2
      have e_off : u.term_offset =
          (if s.term_offset < 19 then s.term_offset + 1 else s.term_offset) := t3
      have e_par : u.parity =
          (if s.is_checksum_term then s.parity else s.parity ^^^ c) := t4
      have e_ict : u.is_checksum_term = s.is_checksum_term := t6
      have e_pub : pub u = pub s := t9
      have e_clock : u.clock = s.clock := t10
      have huict : u.is_checksum_term = false := e_ict.trans hict
      have hupar : u.parity = s.parity ^^^ c := by
        rw [e_par, hict]
        simp
      have hulen : u.term.length = 20 := by
        rw [e_term]
        split_ifs <;> simp [hlen]
      have huoff : u.term_offset < 20 := by
        rw [e_off]
        split_ifs <;> omega
      obtain ⟨s1, hfeed, i1, i2, i3, i4, i5, i6⟩ :=
        ih u (fun b hb => hmem b (List.mem_cons_of_mem _ hb)) huict hulen huoff
      refine ⟨s1, ?_, i1, i2, i3, ?_, ?_, ?_⟩
      · rw [List.length_cons, List.replicate_succ]
        exact feedAll_cons_some hdu hfeed
      · rw [List.foldl_cons, i4, hupar]
      · rw [i5, e_pub]
      · rw [i6, e_clock]

theorem pub_countChar (s : GPSState) : pub (countChar s) = pub s := rfl

theorem replicate_false_concat (n : Nat) :
    List.replicate n false ++ [false] = List.replicate (n + 1) false := by
  induction n with
  | zero => rfl
  | succ k ih => rw [List.replicate_succ, List.cons_append, ih, ← List.replicate_succ]

/-- Feeding a sentence start, a body of payload bytes, the `*` marker
and the two checksum characters: every step returns `false`, the state
then has `is_checksum_term` set, `parity` equal to the XOR of the body,
and the two checksum characters in `term[0]`, `term[1]`. -/
theorem feed_frame (s : GPSState) (hlen : s.term.length = 20)
    (st : Nat) (hst : st = 36 ∨ st = 64)
    (body : List Nat) (hb : ∀ b ∈ body, bodyOk b)
    (d1 d2 : Nat) (hd1 : bodyOk d1) (hn1 : d1 ≠ 44) (hd2 : bodyOk d2) (hn2 : d2 ≠ 44) :
    ∃ s3 s4,
      feedAll s (st :: body ++ [42]) = some (List.replicate (body.length + 2) false, s3) ∧
      feedAll s (st :: body ++ [42, d1, d2]) =
        some (List.replicate (body.length + 4) false, s4) ∧
      s4.is_checksum_term = true ∧
      s4.parity = xorAll body ∧
      (s4.term.set 2 0).getD 0 0 = d1 ∧
      (s4.term.set 2 0).getD 1 0 = d2 ∧
      s4.term_offset = 2 ∧ s4.term.length = 20 ∧
      pub s4 = pub s ∧ s4.clock = s.clock ∧
      s4.sentence_type = s3.sentence_type := by
  obtain ⟨t, hdt, tpar, toff, ttn, tict, ttype, tterm, tpub, tclock, tenc, tg, tf, tp⟩ :=
    decode_start s st hst
  have tlen : t.term.length = 20 := by rw [tterm]; exact hlen
  have toff20 : t.term_offset < 20 := by rw [toff]; omega
  obtain ⟨s1, hfeedb, i1, i2, i3, i4, i5, i6⟩ := feed_body body t hb tict tlen toff20
  have s1par : s1.parity = xorAll body := by rw [i4, tpar]; rfl
  -- the `*` step
  have hoffs1 : s1.term_offset < s1.term.length := by rw [i2]; exact i3
  have hdstar := decode_terminator s1 42 (Or.inr (Or.inl rfl)) hoffs1
  obtain ⟨r1, r2, r3, r4, r5, r6, r7, r8, r9, r10, r11⟩ :=
    terminatorStep_proj (countChar s1) 42 i1
  set u3 : GPSState := (terminatorStep (countChar s1) 42).2 with hu3
  have hpair3 : terminatorStep (countChar s1) 42 = (false, u3) := by rw [← r1, hu3]
  have hdu3 : decode s1 42 = some (false, u3) := by rw [hdstar, hpair3]
  have u3ict : u3.is_checksum_term = true := r2
  have u3term : u3.term = s1.term.set s1.term_offset 0 := r3
  have u3off : u3.term_offset = 0 := r4
  have u3par : u3.parity = s1.parity := r5
  have u3pub : pub u3 = pub s1 := r6.trans (pub_countChar s1)
  have u3clock : u3.clock = s1.clock := r7
  have u3len : u3.term.length = 20 := by rw [u3term, List.length_set]; exact i2
  have u3type : u3.sentence_type = u3.sentence_type := rfl
  -- the first checksum character
  have hdd1 := decode_ordinary u3 d1 hd1 hn1
  obtain ⟨o1, o2, o3, o4, o5, o6, o7, o8, o9, o10, o11, o12, o13, o14⟩ :=
    ordinaryStep_proj (countChar u3) d1
  set u4 : GPSState := (ordinaryStep (countChar u3) d1).2 with hu4
  have hpair4 : ordinaryStep (countChar u3) d1 = (false, u4) := by rw [← o1, hu4]
  have hdu4 : decode u3 d1 = some (false, u4) := by rw [hdd1, hpair4]
  have u4term : u4.term = u3.term.set 0 d1 := by
    have e : u4.term = (if u3.term_offset < 19 then u3.term.set u3.term_offset d1
        else u3.term) := o2
    rw [e, u3off]
    norm_num
  have u4off : u4.term_offset = 1 := by
    have e : u4.term_offset = (if u3.term_offset < 19 then u3.term_offset + 1
        else u3.term_offset) := o3
    rw [e, u3off]
    norm_num
  have u4par : u4.parity = u3.parity := by
    have e : u4.parity = (if u3.is_checksum_term then u3.parity
        else u3.parity ^^^ d1) := o4
    rw [e, u3ict]
    norm_num
  have u4ict : u4.is_checksum_term = true := by
    have e : u4.is_checksum_term = u3.is_checksum_term := o6
    rw [e, u3ict]
  have u4type : u4.sentence_type = u3.sentence_type := o8
  have u4pub : pub u4 = pub u3 := o9.trans (pub_countChar u3)
  have u4clock : u4.clock = u3.clock := o10
  have u4len : u4.term.length = 20 := by rw [u4term, List.length_set]; exact u3len
  -- the second checksum character
  have hdd2 := decode_ordinary u4 d2 hd2 hn2
  obtain ⟨w1, w2, w3, w4, w5, w6, w7, w8, w9, w10, w11, w12, w13, w14⟩ :=
    ordinaryStep_proj (countChar u4) d2
  set u5 : GPSState := (ordinaryStep (countChar u4) d2).2 with hu5
  have hpair5 : ordinaryStep (countChar u4) d2 = (false, u5) := by rw [← w1, hu5]
  have hdu5 : decode u4 d2 = some (false, u5) := by rw [hdd2, hpair5]
  have u5term : u5.term = (u3.term.set 0 d1).set 1 d2 := by
    have e : u5.term = (if u4.term_offset < 19 then u4.term.set u4.term_offset d2
        else u4.term) := w2
    rw [e, u4off, u4term]
    norm_num
  have u5off : u5.term_offset = 2 := by
    have e : u5.term_offset = (if u4.term_offset < 19 then u4.term_offset + 1
        else u4.term_offset) := w3
    rw [e, u4off]
    norm_num
  have u5par : u5.parity = u3.parity := by
    have e : u5.parity = (if u4.is_checksum_term then u4.parity
        else u4.parity ^^^ d2) := w4
    rw [e, u4ict]
    norm_num
    exact u4par
  have u5ict : u5.is_checksum_term = true := by
    have e : u5.is_checksum_term = u4.is_checksum_term := w6
    rw [e, u4ict]
  have u5type : u5.sentence_type = u3.sentence_type := w8.trans u4type
  have u5pub : pub u5 = pub u4 := w9.trans (pub_countChar u4)
  have u5clock : u5.clock = u4.clock := w10
  have u5len : u5.term.length = 20 := by
    rw [u5term]
    simp only [List.length_set]
    exact u3len
  -- assemble the two streams
  have hstar : feedAll s1 [42] = some ([false], u3) := feedAll_cons_some hdu3 rfl
  have hfeed3 : feedAll s (st :: body ++ [42]) =
      some (List.replicate (body.length + 2) false, u3) := by
    have happ := feedAll_append_some hfeedb hstar
    have hcons := feedAll_cons_some hdt happ
    rw [← List.cons_append] at hcons
    rw [hcons, replicate_false_concat]
    rfl
  have htail : feedAll u3 [d1, d2] = some ([false, false], u5) :=
    feedAll_cons_some hdu4 (feedAll_cons_some hdu5 rfl)
  have hstar2 : feedAll s1 [42, d1, d2] = some ([false, false, false], u5) :=
    feedAll_cons_some hdu3 htail
  have hfeed5 : feedAll s (st :: body ++ [42, d1, d2]) =
      some (List.replicate (body.length + 4) false, u5) := by
    have happ := feedAll_append_some hfeedb hstar2
    have hcons := feedAll_cons_some hdt happ
    rw [← List.cons_append] at hcons
    rw [hcons]
    have e1 : body.length + 4 = 1 + (body.length + 3) := by omega
    rw [e1, List.replicate_add, List.replicate_one, List.replicate_add]
    rfl
  -- the buffer reads
  have hg1 : (u5.term.set 2 0).getD 0 0 = d1 := by
    rw [u5term]
    simp [List.getD_eq_getElem?_getD, List.getElem?_set_ne, List.getElem?_set_self,
      List.length_set, u3len]
  have hg2 : (u5.term.set 2 0).getD 1 0 = d2 := by
    rw [u5term]
    simp [List.getD_eq_getElem?_getD, List.getElem?_set_ne, List.getElem?_set_self,
      List.length_set, u3len]
  refine ⟨u3, u5, hfeed3, hfeed5, u5ict, ?_, hg1, hg2, u5off, u5len, ?_, ?_, u5type⟩
  · rw [u5par, u3par, s1par]
  · rw [u5pub, u4pub, u3pub, i5, tpub]
  · rw [u5clock, u4clock, u3clock, i6, tclock]

theorem hex_to_int_bounds (c : Nat) (h : isHexDigit c = true) :
    0 ≤ hex_to_int c ∧ hex_to_int c < 16 := by
  simp only [isHexDigit, decide_eq_true_eq] at h
  unfold hex_to_int
  split_ifs <;> omega

theorem hexDigit_bodyOk (c : Nat) (h : isHexDigit c = true) : bodyOk c ∧ c ≠ 44 := by
  simp only [isHexDigit, decide_eq_true_eq] at h
  unfold bodyOk
  omega

theorem xorAll_lt_256 (body : List Nat) (hb : ∀ b ∈ body, bodyOk b) :
    xorAll body < 256 :=
  foldl_xor_lt_256 body (fun b hbm => (hb b hbm).1) 0 (by omega)

theorem terminatorStep_shape (s : GPSState) (c : Nat) (h44 : c ≠ 44) :
    (terminatorStep s c).1 =
      (parse_term { s with sum := s.sum + (c : Int),
                           term := s.term.set s.term_offset 0 }).1 ∧
    (terminatorStep s c).2 =
      { nextTerm (parse_term { s with sum := s.sum + (c : Int),
                                      term := s.term.set s.term_offset 0 }).2
        with is_checksum_term := decide (c = 42) } := by
  simp only [terminatorStep, if_neg h44]
  refine ⟨?_, ?_⟩ <;> first | rfl | trivial

/-- C1: for every input byte stream containing a well-formed ASCII
sentence (start marker, payload body of ordinary bytes and commas, `*`,
a two-hex-digit checksum token, CR or LF) whose checksum token matches
the running XOR parity accumulated over the payload bytes, `decode`
returns `true` exactly on the byte that terminates the checksum token
and `false` on every earlier byte of the sentence — from any prior
decoder state, since the start marker resets the sentence state. -/
theorem C1_valid_sentence_true_exactly_at_end
    (s : GPSState) (hlen : s.term.length = 20)
    (st : Nat) (hst : st = 36 ∨ st = 64)
    (body : List Nat) (hb : ∀ b ∈ body, bodyOk b)
    (d1 d2 : Nat) (hh1 : isHexDigit d1 = true) (hh2 : isHexDigit d2 = true)
    (e : Nat) (he : e = 13 ∨ e = 10)
    (hcs : 16 * hex_to_int d1 + hex_to_int d2 = (xorAll body : Int)) :
    ∃ s9, feedAll s (st :: body ++ [42, d1, d2, e]) =
      some (List.replicate (body.length + 4) false ++ [true], s9) := by
  obtain ⟨hb1, hn1⟩ := hexDigit_bodyOk d1 hh1
  obtain ⟨hb2, hn2⟩ := hexDigit_bodyOk d2 hh2
  obtain ⟨s3, s4, hfeed3, hfeed5, f_ict, f_par, f_g1, f_g2, f_off, f_len, f_pub,
    f_clock, f_type⟩ := feed_frame s hlen st hst body hb d1 d2 hb1 hn1 hb2 hn2
  have hoff4 : s4.term_offset < s4.term.length := by rw [f_off, f_len]; omega
  have hparlt : xorAll body < 256 := xorAll_lt_256 body hb
  have he44 : e ≠ 44 := by omega
  have hdterm := decode_terminator s4 e (by omega) hoff4
  obtain ⟨e1, e2⟩ := terminatorStep_shape (countChar s4) e he44
  set M : GPSState := { countChar s4 with
    sum := (countChar s4).sum + (e : Int),
    term := (countChar s4).term.set (countChar s4).term_offset 0 } with hM
  have hMict : M.is_checksum_term = true := f_ict
  have hMpar : M.parity = xorAll body := f_par
  have hMterm : M.term = s4.term.set 2 0 := by
    rw [hM]
    show s4.term.set s4.term_offset 0 = s4.term.set 2 0
    rw [f_off]
  have hm : expectedChecksum M = M.parity := by
    unfold expectedChecksum
    by_cases hx : M.sentence_type = XTE2
    · rw [if_pos hx]
    · rw [if_neg hx, hMterm, f_g1, f_g2, hcs, hMpar]
      rw [Int.emod_eq_of_lt (by positivity) (by exact_mod_cast hparlt)]
      exact Int.toNat_natCast _
  have hres : (parse_term M).1 = true := parse_term_ict_match M hMict hm
  have hres2 : (terminatorStep (countChar s4) e).1 = true := e1.trans hres
  set s6 : GPSState := (terminatorStep (countChar s4) e).2 with hs6
  have hpair : terminatorStep (countChar s4) e = (true, s6) := by rw [← hres2, hs6]
  have hdu : decode s4 e = some (true, s6) := by rw [hdterm, hpair]
  have hlast : feedAll s4 [e] = some ([true], s6) := feedAll_cons_some hdu rfl
  have happ := feedAll_append_some hfeed5 hlast
  refine ⟨s6, ?_⟩
  have hl : (st :: body ++ [42, d1, d2]) ++ [e] = st :: body ++ [42, d1, d2, e] := by
    simp
  rw [← hl]
  exact happ

theorem C1_valid_sentence_witness :
    ∃ s9, feedAll initState (36 :: ggaBodyN ++ [42, 52, 55, 13]) =
      some (List.replicate (ggaBodyN.length + 4) false ++ [true], s9) :=
  C1_valid_sentence_true_exactly_at_end initState (by decide) 36 (Or.inl rfl)
    ggaBodyN (by decide) 52 55 (by decide) (by decide) 13 (Or.inl rfl) (by decide)

theorem pub_termWrite (x : GPSState) (a : Int) (b : List Nat) :
    pub { countChar x with sum := a, term := b } = pub x := rfl

/-- C2 counterexample: `$ROXTE,1*00\r` has checksum token `00` (hex
value 0) while the running parity over its payload is 73, yet `decode`
returns `true` on its final byte and sets the XTE new-data flag (the
code classifies `ROXTE` as the binary `XTE2` variant, whose checksum
branch sets `checksum = parity` and always passes). -/
theorem C2_counterexample_roxte :
    roxteSentence = 36 :: [82, 79, 88, 84, 69, 44, 49] ++ [42, 48, 48, 13] ∧
    16 * hex_to_int 48 + hex_to_int 48 = (0 : Int) ∧
    xorAll [82, 79, 88, 84, 69, 44, 49] = 73 ∧
    (feedAll initState roxteSentence).map
        (fun r => (r.1, r.2.new_XTE_data, r.2.last_XTE_fix)) =
      some (List.replicate 11 false ++ [true], true, initState.clock) ∧
    initState.new_XTE_data = false := by
  exact ⟨rfl, by decide, by decide, by decide, rfl⟩

/-- C2 (amended): for every ASCII sentence that the decoder does not
classify as the binary `XTE2` variant (first term not `ROXTE`), if the
two-hex-digit checksum token does not match the XOR parity of the
payload, `decode` returns `false` on every byte of the sentence and
every published field (time, date, latitude, longitude, altitude,
quality, course, speed, xte, the three last-fix timestamps and the
three new-data flags) is unchanged: no partial commit occurs. -/
theorem C2_bad_checksum_all_false_no_commit
    (s : GPSState) (hlen : s.term.length = 20)
    (st : Nat) (hst : st = 36 ∨ st = 64)
    (body : List Nat) (hb : ∀ b ∈ body, bodyOk b)
    (d1 d2 : Nat) (hh1 : isHexDigit d1 = true) (hh2 : isHexDigit d2 = true)
    (e : Nat) (he : e = 13 ∨ e = 10)
    (hne : 16 * hex_to_int d1 + hex_to_int d2 ≠ (xorAll body : Int))
    (hty : (feedAll s (st :: body ++ [42])).map
        (fun r => decide (r.2.sentence_type = XTE2)) ≠ some true) :
    ∃ s9, feedAll s (st :: body ++ [42, d1, d2, e]) =
      some (List.replicate (body.length + 5) false, s9) ∧ pub s9 = pub s := by
  obtain ⟨hb1, hn1⟩ := hexDigit_bodyOk d1 hh1
  obtain ⟨hb2, hn2⟩ := hexDigit_bodyOk d2 hh2
  obtain ⟨s3, s4, hfeed3, hfeed5, f_ict, f_par, f_g1, f_g2, f_off, f_len, f_pub,
    f_clock, f_type⟩ := feed_frame s hlen st hst body hb d1 d2 hb1 hn1 hb2 hn2
  have hoff4 : s4.term_offset < s4.term.length := by rw [f_off, f_len]; omega
  have hs3 : s3.sentence_type ≠ XTE2 := by
    intro hx
    apply hty
    rw [hfeed3]
    simp [hx]
  have he44 : e ≠ 44 := by omega
  have hdterm := decode_terminator s4 e (by omega) hoff4
  obtain ⟨e1, e2⟩ := terminatorStep_shape (countChar s4) e he44
  set M : GPSState := { countChar s4 with
    sum := (countChar s4).sum + (e : Int),
    term := (countChar s4).term.set (countChar s4).term_offset 0 } with hM
  have hMict : M.is_checksum_term = true := f_ict
  have hMpar : M.parity = xorAll body := f_par
  have hMterm : M.term = s4.term.set 2 0 := by
    rw [hM]
    show s4.term.set s4.term_offset 0 = s4.term.set 2 0
    rw [f_off]
  have hMtype : M.sentence_type ≠ XTE2 := by
    have h : M.sentence_type = s3.sentence_type := f_type
    rw [h]
    exact hs3
  obtain ⟨ha1, ha2⟩ := hex_to_int_bounds d1 hh1
  obtain ⟨hc1, hc2⟩ := hex_to_int_bounds d2 hh2
  have hm : expectedChecksum M ≠ M.parity := by
    unfold expectedChecksum
    rw [if_neg hMtype, hMterm, f_g1, f_g2, hMpar]
    have h0 : 0 ≤ 16 * hex_to_int d1 + hex_to_int d2 := by omega
    have h255 : 16 * hex_to_int d1 + hex_to_int d2 < 256 := by omega
    rw [Int.emod_eq_of_lt h0 h255]
    intro hEq
    apply hne
    rw [← Int.toNat_of_nonneg h0, hEq]
  have hres := parse_term_ict_mismatch M hMict hm
  have hresv : (parse_term M).1 = false := by rw [hres]
  have hres2 : (terminatorStep (countChar s4) e).1 = false := e1.trans hresv
  set s6 : GPSState := (terminatorStep (countChar s4) e).2 with hs6
  have hpair : terminatorStep (countChar s4) e = (false, s6) := by rw [← hres2, hs6]
  have hdu : decode s4 e = some (false, s6) := by rw [hdterm, hpair]
  have hpub6 : pub s6 = pub s := by
    have hA : pub s6 = pub (parse_term M).2 := by
      rw [e2]
      try rfl
    have hB : pub (parse_term M).2 = pub M := by
      rw [hres]
      try rfl
    have hC : pub M = pub s4 := by rw [hM]; exact pub_termWrite s4 _ _
    rw [hA, hB, hC, f_pub]
  have hlast : feedAll s4 [e] = some ([false], s6) := feedAll_cons_some hdu rfl
  have happ := feedAll_append_some hfeed5 hlast
  refine ⟨s6, ?_, hpub6⟩
  have hl : (st :: body ++ [42, d1, d2]) ++ [e] = st :: body ++ [42, d1, d2, e] := by
    simp
  rw [← hl, happ, replicate_false_concat]

theorem C2_bad_checksum_witness :
    ∃ s9, feedAll initState (36 :: ggaBodyN ++ [42, 52, 56, 13]) =
      some (List.replicate (ggaBodyN.length + 5) false, s9) ∧ pub s9 = pub initState :=
  C2_bad_checksum_all_false_no_commit initState (by decide) 36 (Or.inl rfl)
    ggaBodyN (by decide) 52 56 (by decide) (by decide) 13 (Or.inl rfl)
    (by decide) (by decide)

theorem parse_term_parity (s : GPSState) : (parse_term s).2.parity = s.parity := by
  simp only [parse_term]
  split_ifs <;> first | rfl | (split <;> rfl) | exact (extractField_proj s).1

theorem terminatorStep_shape44 (s : GPSState) :
    (terminatorStep s 44).1 =
      (parse_term { s with parity := s.parity ^^^ 44,
                           sum := s.sum + ((44 : Nat) : Int),
                           term := s.term.set s.term_offset 0 }).1 ∧
    (terminatorStep s 44).2 =
      { nextTerm (parse_term { s with parity := s.parity ^^^ 44,
                                      sum := s.sum + ((44 : Nat) : Int),
                                      term := s.term.set s.term_offset 0 }).2
        with is_checksum_term := decide ((44 : Nat) = 42) } := by
  simp only [terminatorStep, if_pos (Eq.refl (44 : Nat)), ite_true]
  refine ⟨?_, ?_⟩ <;> first | rfl | trivial

theorem parse_term_ict_iff (s : GPSState) (h : s.is_checksum_term = true) :
    ((parse_term s).1 = true ↔ expectedChecksum s = s.parity) := by
  constructor
  · intro hv
    by_contra hne
    rw [parse_term_ict_mismatch s h hne] at hv
    simp at hv
  · exact parse_term_ict_match s h

theorem getD_set_ne (t : List Nat) (i j a : Nat) (h : i ≠ j) :
    (t.set i a).getD j 0 = t.getD j 0 := by
  simp [List.getD_eq_getElem?_getD, List.getElem?_set_ne h]

theorem nextTerm_ict_parity (x : GPSState) (b : Bool) :
    ({ nextTerm x with is_checksum_term := b } : GPSState).parity = x.parity := rfl

/-- C3: during an ASCII sentence the parity accumulator tracks exactly
the checksum domain: `$`/`@` reset it to 0; a comma terminator is XORed
in; the terminators `:`, `*`, CR, LF are not; an ordinary byte is XORed
in unless the checksum token is being read (and regardless of buffer
truncation, since no `term_offset` bound is assumed); and the value the
final comparison tests against parity is
`16 * hex_to_int(term[0]) + hex_to_int(term[1])` reduced to a byte,
which for hex-digit characters is exactly `16 * hex_to_int(term[0]) +
hex_to_int(term[1])`. -/
theorem C3_parity_domain_and_expected_value :
    (∀ (s : GPSState) (c : Nat) (v : Bool) (t : GPSState), (c = 36 ∨ c = 64) →
      decode s c = some (v, t) → t.parity = 0) ∧
    (∀ (s : GPSState) (v : Bool) (t : GPSState), s.term_offset < s.term.length →
      decode s 44 = some (v, t) → t.parity = s.parity ^^^ 44) ∧
    (∀ (s : GPSState) (c : Nat) (v : Bool) (t : GPSState),
      (c = 58 ∨ c = 42 ∨ c = 13 ∨ c = 10) → s.term_offset < s.term.length →
      decode s c = some (v, t) → t.parity = s.parity) ∧
    (∀ (s : GPSState) (c : Nat) (v : Bool) (t : GPSState), bodyOk c → c ≠ 44 →
      s.is_checksum_term = false →
      decode s c = some (v, t) → t.parity = s.parity ^^^ c) ∧
    (∀ (s : GPSState) (c : Nat) (v : Bool) (t : GPSState), bodyOk c → c ≠ 44 →
      s.is_checksum_term = true →
      decode s c = some (v, t) → t.parity = s.parity) ∧
    (∀ (s : GPSState) (e : Nat) (v : Bool) (t : GPSState),
      s.is_checksum_term = true → s.sentence_type ≠ XTE2 →
      (e = 58 ∨ e = 42 ∨ e = 13 ∨ e = 10) →
      2 ≤ s.term_offset → s.term_offset < s.term.length →
      decode s e = some (v, t) →
      (v = true ↔
        ((16 * hex_to_int (s.term.getD 0 0) + hex_to_int (s.term.getD 1 0)) % 256).toNat
          = s.parity)) ∧
    (∀ a b : Nat, isHexDigit a = true → isHexDigit b = true →
      (16 * hex_to_int a + hex_to_int b) % 256 = 16 * hex_to_int a + hex_to_int b) := by
  refine ⟨?_, ?_, ?_, ?_, ?_, ?_, ?_⟩
  · intro s c v t hc hd
    obtain ⟨u, hdt, upar, _⟩ := decode_start s c hc
    rw [hdt] at hd
    simp only [Option.some.injEq, Prod.mk.injEq] at hd
    rw [← hd.2]
    exact upar
  · intro s v t hoff hd
    rw [decode_comma s hoff] at hd
    simp only [Option.some.injEq] at hd
    obtain ⟨sh1, sh2⟩ := terminatorStep_shape44 (countChar s)
    have ht : t = (terminatorStep (countChar s) 44).2 := by rw [hd]
    rw [ht, sh2, nextTerm_ict_parity, parse_term_parity]
    rfl
  · intro s c v t hc hoff hd
    have h44 : c ≠ 44 := by omega
    rw [decode_terminator s c hc hoff] at hd
    simp only [Option.some.injEq] at hd
    obtain ⟨sh1, sh2⟩ := terminatorStep_shape (countChar s) c h44
    have ht : t = (terminatorStep (countChar s) c).2 := by rw [hd]
    rw [ht, sh2, nextTerm_ict_parity, parse_term_parity]
    rfl
  · intro s c v t hbc h44 hict hd
    rw [decode_ordinary s c hbc h44] at hd
    simp only [Option.some.injEq] at hd
    obtain ⟨o1, o2, o3, o4, _⟩ := ordinaryStep_proj (countChar s) c
    have e4 : (ordinaryStep (countChar s) c).2.parity =
        (if s.is_checksum_term then s.parity else s.parity ^^^ c) := o4
    have ht : t = (ordinaryStep (countChar s) c).2 := by rw [hd]
    rw [ht, e4, hict]
    simp
  · intro s c v t hbc h44 hict hd
    rw [decode_ordinary s c hbc h44] at hd
    simp only [Option.some.injEq] at hd
    obtain ⟨o1, o2, o3, o4, _⟩ := ordinaryStep_proj (countChar s) c
    have e4 : (ordinaryStep (countChar s) c).2.parity =
        (if s.is_checksum_term then s.parity else s.parity ^^^ c) := o4
    have ht : t = (ordinaryStep (countChar s) c).2 := by rw [hd]
    rw [ht, e4, hict]
    simp
  · intro s e v t hict htype he h2off hoff hd
    have he44 : e ≠ 44 := by omega
    rw [decode_terminator s e he hoff] at hd
    simp only [Option.some.injEq] at hd
    obtain ⟨sh1, sh2⟩ := terminatorStep_shape (countChar s) e he44
    set M : GPSState := { countChar s with
      sum := (countChar s).sum + (e : Int),
      term := (countChar s).term.set (countChar s).term_offset 0 } with hM
    have hv : v = (parse_term M).1 := by rw [← sh1, hd]
    have hMict : M.is_checksum_term = true := hict
    have hMterm : M.term = s.term.set s.term_offset 0 := rfl
    have hg0 : M.term.getD 0 0 = s.term.getD 0 0 := by
      rw [hMterm]
      exact getD_set_ne _ _ _ _ (by omega)
    have hg1 : M.term.getD 1 0 = s.term.getD 1 0 := by
      rw [hMterm]
      exact getD_set_ne _ _ _ _ (by omega)
    have hexp : expectedChecksum M =
        ((16 * hex_to_int (s.term.getD 0 0) + hex_to_int (s.term.getD 1 0)) % 256).toNat := by
      unfold expectedChecksum
      rw [if_neg (show M.sentence_type ≠ XTE2 from htype), hg0, hg1]
    have hiff := parse_term_ict_iff M hMict
    rw [hexp] at hiff
    have hMpar : M.parity = s.parity := rfl
    rw [hMpar] at hiff
    rw [hv]
    exact hiff
  · intro a b ha hb
    obtain ⟨ha1, ha2⟩ := hex_to_int_bounds a ha
    obtain ⟨hb1, hb2⟩ := hex_to_int_bounds b hb
    exact Int.emod_eq_of_lt (by omega) (by omega)

theorem C3_parity_witness :
    (decode initState 36).map (fun r => r.2.parity) = some 0 := by
  obtain ⟨c1, -, -, -, -, -, -⟩ := C3_parity_domain_and_expected_value
  cases hd : decode initState 36 with
  | none =>
    have hs : (decode initState 36).isSome = true := by decide
    rw [hd] at hs
    simp at hs
  | some r =>
    obtain ⟨v, t⟩ := r
    have := c1 initState 36 v t (Or.inl rfl) hd
    simp [this]

/-- C4: on byte 3 outside a checksum term with the most recently
buffered byte equal to 16, `decode` subtracts the three trailer bytes
from `sum` and, when the remaining sum equals the two-byte trailer
value `256 * term[term_offset-3] + term[term_offset-2]`, truncates the
term to drop the trailer, runs `parse_term` twice — the second time
with `is_checksum_term` forced true, a comparison that trivially passes
when the sentence type is the binary `XTE2` variant because `checksum`
is set equal to `parity` — and returns that result; when the
most-recently-buffered-byte pattern does not match (or a checksum term
is being read), byte 3 is handled as an ordinary character: appended to
the term if space remains, XORed into `parity` when outside a checksum
term, and added to `sum`. -/
theorem C4_trimble_frame_terminator :
    (∀ (s : GPSState) (p2 p3 : Nat),
      s.is_checksum_term = false →
      3 ≤ s.term_offset → s.term_offset ≤ 19 → s.term.length = 20 →
      s.term.getD (s.term_offset - 1) 0 = 16 →
      s.term.getD (s.term_offset - 2) 0 = p2 →
      s.term.getD (s.term_offset - 3) 0 = p3 →
      s.sum - ((16 : Nat) : Int) - (p2 : Int) - (p3 : Int)
        - (p2 : Int) - 256 * (p3 : Int) = 0 →
      (decode s 3 =
        some ((parse_term { (parse_term { countChar s with
            sum := s.sum - ((16 : Nat) : Int) - (p2 : Int) - (p3 : Int),
            term := s.term.set (s.term_offset - 3) 0 }).2
              with is_checksum_term := true }).1,
          nextTerm (parse_term { (parse_term { countChar s with
            sum := s.sum - ((16 : Nat) : Int) - (p2 : Int) - (p3 : Int),
            term := s.term.set (s.term_offset - 3) 0 }).2
              with is_checksum_term := true }).2) ∧
       ((parse_term { countChar s with
            sum := s.sum - ((16 : Nat) : Int) - (p2 : Int) - (p3 : Int),
            term := s.term.set (s.term_offset - 3) 0 }).2.sentence_type = XTE2 →
        (parse_term { (parse_term { countChar s with
            sum := s.sum - ((16 : Nat) : Int) - (p2 : Int) - (p3 : Int),
            term := s.term.set (s.term_offset - 3) 0 }).2
              with is_checksum_term := true }).1 = true))) ∧
    (∀ s : GPSState,
      1 ≤ s.term_offset → s.term_offset ≤ 19 → s.term.length = 20 →
      (s.is_checksum_term = true ∨ s.term.getD (s.term_offset - 1) 0 ≠ 16) →
      decode s 3 = some (ordinaryStep (countChar s) 3) ∧
      (ordinaryStep (countChar s) 3).1 = false ∧
      (ordinaryStep (countChar s) 3).2.term =
        (if s.term_offset < 19 then s.term.set s.term_offset 3 else s.term) ∧
      (ordinaryStep (countChar s) 3).2.parity =
        (if s.is_checksum_term then s.parity else s.parity ^^^ 3) ∧
      (ordinaryStep (countChar s) 3).2.sum = s.sum + ((3 : Nat) : Int)) := by
  constructor
  · intro s p2 p3 hict hoff3 hoff19 hlen hp1 hp2 hp3 hsum
    have ht1 : ((s.term_offset : Int) - 1).toNat = s.term_offset - 1 := by omega
    have ht2 : ((s.term_offset : Int) - 2).toNat = s.term_offset - 2 := by omega
    have ht3 : ((s.term_offset : Int) - 3).toNat = s.term_offset - 3 := by omega
    have hr1 : rdTerm s.term ((s.term_offset : Int) - 1) = some 16 := by
      unfold rdTerm
      rw [if_pos ⟨by omega, by rw [hlen]; push_cast; omega⟩, ht1, hp1]
    have hr2 : rdTerm s.term ((s.term_offset : Int) - 2) = some p2 := by
      unfold rdTerm
      rw [if_pos ⟨by omega, by rw [hlen]; push_cast; omega⟩, ht2, hp2]
    have hr3 : rdTerm s.term ((s.term_offset : Int) - 3) = some p3 := by
      unfold rdTerm
      rw [if_pos ⟨by omega, by rw [hlen]; push_cast; omega⟩, ht3, hp3]
    constructor
    · unfold decode
      rw [if_neg (by norm_num), if_neg (by norm_num), if_neg (by norm_num),
          if_neg (by norm_num), if_pos (Eq.refl (3 : Nat))]
      simp only [hr1, hr2, hr3]
      rw [if_pos ⟨trivial, hict⟩]
      rw [if_pos (by push_cast at hsum ⊢; omega)]
      simp only [trimbleCommit]
      rfl
    · intro hX
      apply parse_term_ict_match
      · rfl
      · unfold expectedChecksum
        rw [if_pos hX]
  · intro s hoff1 hoff19 hlen hcond
    have ht1 : ((s.term_offset : Int) - 1).toNat = s.term_offset - 1 := by omega
    have hr1 : rdTerm s.term ((s.term_offset : Int) - 1) =
        some (s.term.getD (s.term_offset - 1) 0) := by
      unfold rdTerm
      rw [if_pos ⟨by omega, by rw [hlen]; push_cast; omega⟩, ht1]
    obtain ⟨o1, o2, o3, o4, o5, _⟩ := ordinaryStep_proj (countChar s) 3
    refine ⟨?_, o1, o2, ?_, o5⟩
    · unfold decode
      rw [if_neg (by norm_num), if_neg (by norm_num), if_neg (by norm_num),
          if_neg (by norm_num), if_pos (Eq.refl (3 : Nat))]
      simp only [hr1]
      rw [if_neg ?hng]
      case hng =>
        rintro ⟨h1', h2'⟩
        rcases hcond with h | h
        · rw [h] at h2'
          exact absurd h2' (by simp)
        · exact h h1'
    · exact o4

theorem C4_trimble_witness :
    (decode trimbleState 3).map (fun r => r.1) = some true := by
  obtain ⟨ha, -⟩ := C4_trimble_frame_terminator
  have h := ha trimbleState 0 0 rfl (by decide) (by decide) (by decide) (by decide)
    (by decide) (by decide) (by decide)
  have h2 := h.2 (by decide)
  rw [h.1, Option.map_some', h2]

/-- `strcmp` on two NUL-containing buffers decides equality of the C
strings they hold (the bytes up to the first NUL). -/
theorem strcmp_iff_cstr (s1 : List Nat) : ∀ s2 : List Nat, 0 ∈ s1 → 0 ∈ s2 →
    (strcmp s1 s2 = true ↔ cstr s1 = cstr s2) := by
  induction s1 with
  | nil => intro s2 h1 h2; exact absurd h1 (List.not_mem_nil 0)
  | cons a as ih =>
    intro s2 h1 h2
    cases s2 with
    | nil => exact absurd h2 (List.not_mem_nil 0)
    | cons b bs =>
      by_cases hab : a = b
      · subst hab
        by_cases ha0 : a = 0
        · subst ha0
          simp [strcmp, cstr]
        · have h1' : 0 ∈ as := by
            rcases List.mem_cons.mp h1 with h | h
            · exact absurd h.symm ha0
            · exact h
          have h2' : 0 ∈ bs := by
            rcases List.mem_cons.mp h2 with h | h
            · exact absurd h.symm ha0
            · exact h
          rw [show strcmp (a :: as) (a :: bs) = strcmp as bs by simp [strcmp, ha0]]
          rw [show cstr (a :: as) = a :: cstr as by simp [cstr, ha0]]
          rw [show cstr (a :: bs) = a :: cstr bs by simp [cstr, ha0]]
          rw [ih bs h1' h2']
          simp
      · rw [show strcmp (a :: as) (b :: bs) = false by simp [strcmp, hab]]
        constructor
        · intro h
          exact absurd h (by simp)
        · intro hc
          exfalso
          by_cases ha0 : a = 0
          · subst ha0
            have hb0 : b ≠ 0 := fun h => hab h.symm
            simp [cstr, hb0] at hc
          · by_cases hb0 : b = 0
            · subst hb0
              simp [cstr, ha0] at hc
            · simp [cstr, ha0, hb0] at hc
              exact hab hc.1

/-- `strcmp` against a NUL-terminated literal decides whether the
buffer's C string is exactly that literal. -/
theorem strcmp_pattern (p : List Nat) : ∀ t : List Nat, 0 ∉ p → p.length < t.length →
    (strcmp t (p ++ [0]) = true ↔ cstr t = p) := by
  induction p with
  | nil =>
    intro t hp hlen
    cases t with
    | nil => simp at hlen
    | cons a as =>
      by_cases ha : a = 0 <;> simp [strcmp, cstr, ha]
  | cons q qs ih =>
    intro t hp hlen
    cases t with
    | nil => simp at hlen
    | cons a as =>
      have hq0 : q ≠ 0 := fun h => hp (by rw [h]; exact List.mem_cons_self _ _)
      by_cases haq : a = q
      · subst haq
        rw [show strcmp (a :: as) ((a :: qs) ++ [0]) = strcmp as (qs ++ [0]) by
          simp [strcmp, hq0]]
        rw [show cstr (a :: as) = a :: cstr as by simp [cstr, hq0]]
        rw [ih as (fun h => hp (List.mem_cons_of_mem _ h)) (by simpa using hlen)]
        simp
      · rw [show strcmp (a :: as) ((q :: qs) ++ [0]) = false by simp [strcmp, haq]]
        constructor
        · intro h
          exact absurd h (by simp)
        · intro hc
          exfalso
          by_cases ha0 : a = 0
          · subst ha0
            simp [cstr] at hc
          · simp [cstr, ha0] at hc
            exact haq hc.1

/-- The classification ladder decides by exact, full-token equality of
the buffered C string against the four recognized prefixes. -/
theorem classifyTerm0_spec (t : List Nat) (hlen : t.length = 20) :
    classifyTerm0 t =
      (if cstr t = [71, 80, 71, 71, 65] then GGA
       else if cstr t = [71, 80, 86, 84, 71] then VTG
       else if cstr t = [71, 80, 88, 84, 69] then XTE
       else if cstr t = [82, 79, 88, 84, 69] then XTE2
       else OTHER) := by
  unfold classifyTerm0
  have h1 := strcmp_pattern [71, 80, 71, 71, 65] t (by decide) (by rw [hlen]; decide)
  have h2 := strcmp_pattern [71, 80, 86, 84, 71] t (by decide) (by rw [hlen]; decide)
  have h3 := strcmp_pattern [71, 80, 88, 84, 69] t (by decide) (by rw [hlen]; decide)
  have h4 := strcmp_pattern [82, 79, 88, 84, 69] t (by decide) (by rw [hlen]; decide)
  rw [show GPGGA_TERM = [71, 80, 71, 71, 65] ++ [0] from rfl,
      show GPVTG_TERM = [71, 80, 86, 84, 71] ++ [0] from rfl,
      show GPXTE_TERM = [71, 80, 88, 84, 69] ++ [0] from rfl,
      show ROXTE_TERM = [82, 79, 88, 84, 69] ++ [0] from rfl]
  simp only [h1, h2, h3, h4]

/-- C5: on completion of term 0 the sentence type is decided by exact,
case-sensitive, full-token equality of the buffered C string against
the fixed prefixes `GPGGA`, `GPVTG`, `GPXTE`, `ROXTE` (a strict prefix
or extension of a prefix is not a match, since equality is of the whole
token), any other token yields `OTHER` and the call returns `false`;
and the helper named `strcmp` returns `true` iff its two argument
strings are character-for-character equal up to their NUL terminators. -/
theorem C5_term0_classification_and_strcmp :
    (∀ s : GPSState, s.is_checksum_term = false → s.term_number = 0 →
      s.term.length = 20 →
      (parse_term s).1 = false ∧
      (parse_term s).2.sentence_type =
        (if cstr s.term = [71, 80, 71, 71, 65] then GGA
         else if cstr s.term = [71, 80, 86, 84, 71] then VTG
         else if cstr s.term = [71, 80, 88, 84, 69] then XTE
         else if cstr s.term = [82, 79, 88, 84, 69] then XTE2
         else OTHER)) ∧
    (∀ s1 s2 : List Nat, 0 ∈ s1 → 0 ∈ s2 →
      (strcmp s1 s2 = true ↔ cstr s1 = cstr s2)) := by
  constructor
  · intro s hict htn hlen
    refine ⟨(parse_term_not_ict s hict).1, ?_⟩
    have h : (parse_term s).2.sentence_type = classifyTerm0 s.term := by
      unfold parse_term
      rw [if_neg (by simp [hict]), if_pos htn]
    rw [h, classifyTerm0_spec s.term hlen]
  · exact fun s1 s2 h1 h2 => strcmp_iff_cstr s1 s2 h1 h2

theorem C5_classification_witness :
    (parse_term term0State).1 = false ∧
    (parse_term term0State).2.sentence_type = XTE ∧
    (strcmp [71, 0] [71, 0] = true ↔ cstr [71, 0] = cstr [71, 0]) := by
  obtain ⟨hc, hs⟩ := C5_term0_classification_and_strcmp
  obtain ⟨ha, hb⟩ := hc term0State rfl rfl (by decide)
  refine ⟨ha, ?_, hs [71, 0] [71, 0] (by decide) (by decide)⟩
  rw [hb]
  decide

theorem terminatorStep_offset (s : GPSState) (c : Nat) :
    (terminatorStep s c).2.term_offset = 0 := rfl

theorem trimbleCommit_offset (s : GPSState) :
    (trimbleCommit s).2.term_offset = 0 := rfl

theorem nextTerm_offset (s : GPSState) : (nextTerm s).term_offset = 0 := rfl

/-- One decode step keeps the write cursor within the buffer bound. -/
theorem decode_offset_le (s : GPSState) (c : Nat) (v : Bool) (t : GPSState)
    (hs : s.term_offset ≤ 19) (hd : decode s c = some (v, t)) :
    t.term_offset ≤ 19 := by
  unfold decode at hd
  by_cases h191 : c = 191
  · rw [if_pos h191] at hd
    simp only [Option.some.injEq, Prod.mk.injEq] at hd
    rw [← hd.2]
    simp
  rw [if_neg h191] at hd
  by_cases h36 : c = 36 ∨ c = 64
  · rw [if_pos h36] at hd
    simp only [Option.some.injEq, Prod.mk.injEq] at hd
    rw [← hd.2]
    simp
  rw [if_neg h36] at hd
  by_cases h20 : c = 20 ∨ c = 0 ∨ c = 32
  · rw [if_pos h20] at hd
    simp only [Option.some.injEq, Prod.mk.injEq] at hd
    rw [← hd.2]
    exact hs
  rw [if_neg h20] at hd
  by_cases h44 : c = 44 ∨ c = 58 ∨ c = 42 ∨ c = 13 ∨ c = 10
  · rw [if_pos h44] at hd
    split_ifs at hd
    simp only [Option.some.injEq] at hd
    have : t = (terminatorStep (countChar s) c).2 := by rw [hd]
    rw [this, terminatorStep_offset]
    omega
  rw [if_neg h44] at hd
  have hordoff : (ordinaryStep (countChar s) c).2.term_offset ≤ 19 := by
    have e := (ordinaryStep_proj (countChar s) c).2.2.1
    have e2 : (ordinaryStep (countChar s) c).2.term_offset =
        (if s.term_offset < 19 then s.term_offset + 1 else s.term_offset) := e
    rw [e2]
    split_ifs <;> omega
  by_cases h3 : c = 3
  · rw [if_pos h3] at hd
    cases hrd : rdTerm s.term ((s.term_offset : Int) - 1) with
    | none => rw [hrd] at hd; simp at hd
    | some p1 =>
      rw [hrd] at hd
      simp only at hd
      split_ifs at hd with hg
      · cases hrd2 : rdTerm s.term ((s.term_offset : Int) - 2) with
        | none => rw [hrd2] at hd; simp at hd
        | some p2 =>
          cases hrd3 : rdTerm s.term ((s.term_offset : Int) - 3) with
          | none => rw [hrd2, hrd3] at hd; simp at hd
          | some p3 =>
            rw [hrd2, hrd3] at hd
            simp only at hd
            split_ifs at hd
            · simp only [Option.some.injEq] at hd
              have : t = (trimbleCommit { countChar s with
                  sum := s.sum - (p1 : Int) - (p2 : Int) - (p3 : Int) }).2 := by
                rw [hd]
              rw [this, trimbleCommit_offset]
              omega
            · simp only [Option.some.injEq, Prod.mk.injEq] at hd
              rw [← hd.2, nextTerm_offset]
              omega
      · simp only [Option.some.injEq] at hd
        have : t = (ordinaryStep (countChar s) c).2 := by rw [hd]
        rw [this]
        exact hordoff
  rw [if_neg h3] at hd
  simp only [Option.some.injEq] at hd
  have : t = (ordinaryStep (countChar s) c).2 := by rw [hd]
  rw [this]
  exact hordoff

/-- `feedAll` from a within-bounds cursor keeps the cursor in bounds. -/
theorem feedAll_offset_le (bs : List Nat) :
    ∀ (s : GPSState) (r : List Bool × GPSState), s.term_offset ≤ 19 →
    feedAll s bs = some r → r.2.term_offset ≤ 19 := by
  induction bs with
  | nil =>
    intro s r hs hf
    simp only [feedAll, Option.some.injEq] at hf
    rw [← hf]
    exact hs
  | cons c cs ih =>
    intro s r hs hf
    unfold feedAll at hf
    cases hd : decode s c with
    | none => rw [hd] at hf; simp at hf
    | some p =>
      obtain ⟨v, t⟩ := p
      rw [hd] at hf
      simp only at hf
      cases hm : feedAll t cs with
      | none => rw [hm] at hf; simp at hf
      | some q =>
        rw [hm] at hf
        simp only [Option.some.injEq] at hf
        rw [← hf]
        exact ih t q (decode_offset_le s c v t hs hd) hm

/-- C6: after every `decode` call the write cursor `term_offset` stays
at most 19 (buffer capacity 20 minus the NUL slot), both stepwise and
along any stream from the initial state; and an ordinary byte arriving
with a full buffer is not stored in `term` but is still XORed into
`parity` (outside a checksum term) and added to `sum`. -/
theorem C6_cursor_bound_and_truncation :
    (∀ (s : GPSState) (c : Nat) (v : Bool) (t : GPSState), s.term_offset ≤ 19 →
      decode s c = some (v, t) → t.term_offset ≤ 19) ∧
    (∀ (bs : List Nat) (r : List Bool × GPSState),
      feedAll initState bs = some r → r.2.term_offset ≤ 19) ∧
    (∀ (s : GPSState) (c : Nat), bodyOk c → c ≠ 44 → s.term_offset = 19 →
      decode s c = some (ordinaryStep (countChar s) c) ∧
      (ordinaryStep (countChar s) c).2.term = s.term ∧
      (ordinaryStep (countChar s) c).2.parity =
        (if s.is_checksum_term then s.parity else s.parity ^^^ c) ∧
      (ordinaryStep (countChar s) c).2.sum = s.sum + (c : Int)) := by
  refine ⟨decode_offset_le, ?_, ?_⟩
  · intro bs r hf
    exact feedAll_offset_le bs initState r (by decide) hf
  · intro s c hbc h44 hoff
    obtain ⟨o1, o2, o3, o4, o5, _⟩ := ordinaryStep_proj (countChar s) c
    refine ⟨decode_ordinary s c hbc h44, ?_, o4, o5⟩
    have e2 : (ordinaryStep (countChar s) c).2.term =
        (if s.term_offset < 19 then s.term.set s.term_offset c else s.term) := o2
    rw [e2, hoff]
    norm_num

theorem C6_cursor_witness :
    (decode fullBufState 65).map (fun r => r.2.term) = some fullBufState.term := by
  obtain ⟨-, -, hc⟩ := C6_cursor_bound_and_truncation
  have h := hc fullBufState 65 (by decide) (by decide) rfl
  rw [h.1, Option.map_some', h.2.1]

/-- With `GPS_NO_STATS` defined, `parse_term` leaves all four
statistics counters untouched (the increments are compiled out). -/
theorem parse_term_counters (s : GPSState) :
    (parse_term s).2.encoded_characters = s.encoded_characters ∧
    (parse_term s).2.good_sentences = s.good_sentences ∧
    (parse_term s).2.failed_checksum = s.failed_checksum ∧
    (parse_term s).2.passed_checksum = s.passed_checksum := by
  have e := extractField_proj s
  simp only [parse_term]
  split_ifs <;>
    first
      | exact ⟨rfl, rfl, rfl, rfl⟩
      | (split <;> exact ⟨rfl, rfl, rfl, rfl⟩)
      | exact ⟨e.2.2.2.2.2.2.2.1, e.2.2.2.2.2.2.2.2.1, e.2.2.2.2.2.2.2.2.2.1,
               e.2.2.2.2.2.2.2.2.2.2.1⟩

theorem terminatorStep_counters (x : GPSState) (c : Nat) :
    (terminatorStep x c).2.encoded_characters = x.encoded_characters ∧
    (terminatorStep x c).2.good_sentences = x.good_sentences ∧
    (terminatorStep x c).2.failed_checksum = x.failed_checksum ∧
    (terminatorStep x c).2.passed_checksum = x.passed_checksum := by
  by_cases h44 : c = 44
  · subst h44
    obtain ⟨sh1, sh2⟩ := terminatorStep_shape44 x
    obtain ⟨q1, q2, q3, q4⟩ := parse_term_counters
      { x with parity := x.parity ^^^ 44, sum := x.sum + ((44 : Nat) : Int),
               term := x.term.set x.term_offset 0 }
    refine ⟨?_, ?_, ?_, ?_⟩ <;> rw [sh2]
    · exact q1
    · exact q2
    · exact q3
    · exact q4
  · obtain ⟨sh1, sh2⟩ := terminatorStep_shape x c h44
    obtain ⟨q1, q2, q3, q4⟩ := parse_term_counters
      { x with sum := x.sum + (c : Int), term := x.term.set x.term_offset 0 }
    refine ⟨?_, ?_, ?_, ?_⟩ <;> rw [sh2]
    · exact q1
    · exact q2
    · exact q3
    · exact q4

theorem trimbleCommit_counters (x : GPSState) :
    (trimbleCommit x).2.encoded_characters = x.encoded_characters ∧
    (trimbleCommit x).2.good_sentences = x.good_sentences ∧
    (trimbleCommit x).2.failed_checksum = x.failed_checksum ∧
    (trimbleCommit x).2.passed_checksum = x.passed_checksum := by
  obtain ⟨q1, q2, q3, q4⟩ := parse_term_counters
    { x with term := x.term.set (x.term_offset - 3) 0 }
  obtain ⟨w1, w2, w3, w4⟩ := parse_term_counters
    { (parse_term { x with term := x.term.set (x.term_offset - 3) 0 }).2
      with is_checksum_term := true }
  simp only [trimbleCommit]
  exact ⟨w1.trans q1, w2.trans q2, w3.trans q3, w4.trans q4⟩

theorem ordinaryStep_counters (x : GPSState) (c : Nat) :
    (ordinaryStep x c).2.encoded_characters = x.encoded_characters ∧
    (ordinaryStep x c).2.good_sentences = x.good_sentences ∧
    (ordinaryStep x c).2.failed_checksum = x.failed_checksum ∧
    (ordinaryStep x c).2.passed_checksum = x.passed_checksum := by
  obtain ⟨o1, o2, o3, o4, o5, o6, o7, o8, o9, o10, o11, o12, o13, o14⟩ :=
    ordinaryStep_proj x c
  exact ⟨o11, o12, o13, o14⟩

/-- C7 (amended): every `decode` call increments the bytes-processed
counter `encoded_characters` by one (FarmGPS.cpp line 256 sits outside
any `GPS_NO_STATS` guard), while — because `GPS_NO_STATS` is defined in
FarmGPS.h — neither a matching nor a mismatching checksum comparison
changes `good_sentences`, `failed_checksum` or `passed_checksum`. -/
theorem C7_stats_counters (s : GPSState) (c : Nat) (v : Bool) (t : GPSState)
    (hd : decode s c = some (v, t)) :
    t.encoded_characters = s.encoded_characters + 1 ∧
    t.good_sentences = s.good_sentences ∧
    t.failed_checksum = s.failed_checksum ∧
    t.passed_checksum = s.passed_checksum := by
  unfold decode at hd
  by_cases h191 : c = 191
  · rw [if_pos h191] at hd
    simp only [Option.some.injEq, Prod.mk.injEq] at hd
    rw [← hd.2]
    exact ⟨rfl, rfl, rfl, rfl⟩
  rw [if_neg h191] at hd
  by_cases h36 : c = 36 ∨ c = 64
  · rw [if_pos h36] at hd
    simp only [Option.some.injEq, Prod.mk.injEq] at hd
    rw [← hd.2]
    exact ⟨rfl, rfl, rfl, rfl⟩
  rw [if_neg h36] at hd
  by_cases h20 : c = 20 ∨ c = 0 ∨ c = 32
  · rw [if_pos h20] at hd
    simp only [Option.some.injEq, Prod.mk.injEq] at hd
    rw [← hd.2]
    exact ⟨rfl, rfl, rfl, rfl⟩
  rw [if_neg h20] at hd
  by_cases h44 : c = 44 ∨ c = 58 ∨ c = 42 ∨ c = 13 ∨ c = 10
  · rw [if_pos h44] at hd
    split_ifs at hd
    simp only [Option.some.injEq] at hd
    have ht : t = (terminatorStep (countChar s) c).2 := by rw [hd]
    obtain ⟨q1, q2, q3, q4⟩ := terminatorStep_counters (countChar s) c
    rw [ht]
    exact ⟨q1, q2, q3, q4⟩
  rw [if_neg h44] at hd
  have hord : (ordinaryStep (countChar s) c).2.encoded_characters =
        s.encoded_characters + 1 ∧
      (ordinaryStep (countChar s) c).2.good_sentences = s.good_sentences ∧
      (ordinaryStep (countChar s) c).2.failed_checksum = s.failed_checksum ∧
      (ordinaryStep (countChar s) c).2.passed_checksum = s.passed_checksum := by
    obtain ⟨q1, q2, q3, q4⟩ := ordinaryStep_counters (countChar s) c
    exact ⟨q1, q2, q3, q4⟩
  by_cases h3 : c = 3
  · rw [if_pos h3] at hd
    cases hrd : rdTerm s.term ((s.term_offset : Int) - 1) with
    | none => rw [hrd] at hd; simp at hd
    | some p1 =>
      rw [hrd] at hd
      simp only at hd
      split_ifs at hd with hg
      · cases hrd2 : rdTerm s.term ((s.term_offset : Int) - 2) with
        | none => rw [hrd2] at hd; simp at hd
        | some p2 =>
          cases hrd3 : rdTerm s.term ((s.term_offset : Int) - 3) with
          | none => rw [hrd2, hrd3] at hd; simp at hd
          | some p3 =>
            rw [hrd2, hrd3] at hd
            simp only at hd
            split_ifs at hd
            · simp only [Option.some.injEq] at hd
              have ht : t = (trimbleCommit { countChar s with
                  sum := s.sum - (p1 : Int) - (p2 : Int) - (p3 : Int) }).2 := by
                rw [hd]
              obtain ⟨q1, q2, q3, q4⟩ := trimbleCommit_counters { countChar s with
                  sum := s.sum - (p1 : Int) - (p2 : Int) - (p3 : Int) }
              rw [ht]
              exact ⟨q1, q2, q3, q4⟩
            · simp only [Option.some.injEq, Prod.mk.injEq] at hd
              rw [← hd.2]
              exact ⟨rfl, rfl, rfl, rfl⟩
      · simp only [Option.some.injEq] at hd
        have ht : t = (ordinaryStep (countChar s) c).2 := by rw [hd]
        rw [ht]
        exact hord
  rw [if_neg h3] at hd
  simp only [Option.some.injEq] at hd
  have ht : t = (ordinaryStep (countChar s) c).2 := by rw [hd]
  rw [ht]
  exact hord

theorem C7_stats_witness :
    (decode initState 36).map (fun r => r.2.encoded_characters) = some 1 := by
  cases hd : decode initState 36 with
  | none =>
    have hs : (decode initState 36).isSome = true := by decide
    rw [hd] at hs
    simp at hs
  | some r =>
    obtain ⟨v, t⟩ := r
    have h := C7_stats_counters initState 36 v t hd
    rw [Option.map_some', h.1]
    try rfl

/-- C7 counterexample: the sentence `$A*41\r` passes its checksum
comparison (`decode` returns `true` on the CR), yet `good_sentences`,
`failed_checksum` and `passed_checksum` all remain 0 — the success and
failure counter increments are compiled out by `GPS_NO_STATS`; only
`encoded_characters` advances, by one per byte. -/
theorem C7_counterexample_stats :
    (feedAll initState miniSentence).map
        (fun r => (r.1, r.2.good_sentences, r.2.failed_checksum,
                   r.2.passed_checksum, r.2.encoded_characters)) =
      some ([false, false, false, false, false, true], 0, 0, 0, 6) ∧
    initState.good_sentences = 0 ∧ initState.failed_checksum = 0 ∧
    initState.passed_checksum = 0 := by
  exact ⟨by decide, rfl, rfl, rfl⟩

/-- Characterization of a successful `parse_term`: it happens only on a
checksum term whose expected value matches `parity`, and commits
exactly the shadow fields of the current sentence type. -/
theorem parse_term_commit (s t : GPSState) (h : parse_term s = (true, t)) :
    s.is_checksum_term = true ∧ expectedChecksum s = s.parity ∧
    (s.sentence_type = GGA → t = { s with
        checksum := expectedChecksum s, altitude := s.new_altitude,
        time := s.new_time, latitude := s.new_latitude,
        longitude := s.new_longitude, quality := s.new_quality,
        last_GGA_fix := s.clock, new_GGA_data := true }) ∧
    (s.sentence_type = VTG → t = { s with
        checksum := expectedChecksum s, course := s.new_course,
        speed := s.new_speed, last_VTG_fix := s.clock,
        new_VTG_data := true }) ∧
    (s.sentence_type = XTE → t = { s with
        checksum := expectedChecksum s, xte := s.new_xte,
        last_XTE_fix := s.clock, new_XTE_data := true }) ∧
    (s.sentence_type = XTE2 → t = { s with
        checksum := expectedChecksum s, xte := s.new_xte,
        last_XTE_fix := s.clock, new_XTE_data := true }) ∧
    (s.sentence_type = OTHER → t = { s with checksum := expectedChecksum s }) := by
  have hict : s.is_checksum_term = true := by
    by_contra hict
    have hict' : s.is_checksum_term = false := by
      simpa using hict
    have hfalse := (parse_term_not_ict s hict').1
    rw [h] at hfalse
    simp at hfalse
  have hm : expectedChecksum s = s.parity := by
    by_contra hm
    have := parse_term_ict_mismatch s hict hm
    rw [this] at h
    simp at h
  refine ⟨hict, hm, ?_, ?_, ?_, ?_, ?_⟩ <;> intro hst <;>
    · simp only [parse_term] at h
      rw [if_pos hict] at h
      rw [if_pos (show ({ s with checksum := expectedChecksum s } : GPSState).checksum =
        ({ s with checksum := expectedChecksum s } : GPSState).parity from hm)] at h
      simp only [hst] at h
      simp only [Prod.mk.injEq] at h
      rw [hst]
      exact h.2.symm

/-- A failed `parse_term` leaves the published outputs unchanged. -/
theorem parse_term_false_pub (s t : GPSState) (h : parse_term s = (false, t)) :
    pub t = pub s := by
  by_cases hict : s.is_checksum_term = true
  · by_cases hm : expectedChecksum s = s.parity
    · have := parse_term_ict_match s hict hm
      rw [h] at this
      simp at this
    · have heq := parse_term_ict_mismatch s hict hm
      rw [heq] at h
      simp only [Prod.mk.injEq] at h
      rw [← h.2]
      rfl
  · have hict' : s.is_checksum_term = false := by simpa using hict
    have hp := (parse_term_not_ict s hict').2.1
    have ht : (parse_term s).2 = t := by rw [h]
    rw [← ht]
    exact hp

theorem terminatorStep_false_pub (x : GPSState) (c : Nat)
    (h : (terminatorStep x c).1 = false) :
    pub (terminatorStep x c).2 = pub x := by
  by_cases h44 : c = 44
  · subst h44
    obtain ⟨sh1, sh2⟩ := terminatorStep_shape44 x
    set M : GPSState := { x with parity := x.parity ^^^ 44,
                                 sum := x.sum + ((44 : Nat) : Int),
                                 term := x.term.set x.term_offset 0 } with hM
    have hv : (parse_term M).1 = false := by rw [← sh1]; exact h
    have hpair : parse_term M = (false, (parse_term M).2) := by rw [← hv]
    have hp := parse_term_false_pub M (parse_term M).2 hpair
    rw [sh2]
    have hA : pub ({ nextTerm (parse_term M).2
        with is_checksum_term := decide ((44 : Nat) = 42) } : GPSState) =
        pub (parse_term M).2 := rfl
    rw [hA, hp, hM]
    rfl
  · obtain ⟨sh1, sh2⟩ := terminatorStep_shape x c h44
    set M : GPSState := { x with sum := x.sum + (c : Int),
                                 term := x.term.set x.term_offset 0 } with hM
    have hv : (parse_term M).1 = false := by rw [← sh1]; exact h
    have hpair : parse_term M = (false, (parse_term M).2) := by rw [← hv]
    have hp := parse_term_false_pub M (parse_term M).2 hpair
    rw [sh2]
    have hA : pub ({ nextTerm (parse_term M).2
        with is_checksum_term := decide (c = 42) } : GPSState) =
        pub (parse_term M).2 := rfl
    rw [hA, hp, hM]
    rfl

theorem trimbleCommit_false_pub (x : GPSState) (hict : x.is_checksum_term = false)
    (h : (trimbleCommit x).1 = false) :
    pub (trimbleCommit x).2 = pub x := by
  set M : GPSState := { x with term := x.term.set (x.term_offset - 3) 0 } with hM
  have hMict : M.is_checksum_term = false := hict
  have hp1 := (parse_term_not_ict M hMict).2.1
  set R : GPSState := { (parse_term M).2 with is_checksum_term := true } with hR
  have hv : (parse_term R).1 = false := by
    have e : (trimbleCommit x).1 = (parse_term R).1 := by
      rw [hR, hM]
      simp only [trimbleCommit]
    rw [← e]
    exact h
  have hpair : parse_term R = (false, (parse_term R).2) := by rw [← hv]
  have hp2 := parse_term_false_pub R (parse_term R).2 hpair
  have e2 : (trimbleCommit x).2 = nextTerm (parse_term R).2 := by
    rw [hR, hM]
    simp only [trimbleCommit]
  rw [e2]
  have hA : pub (nextTerm (parse_term R).2) = pub (parse_term R).2 := rfl
  have hB : pub R = pub (parse_term M).2 := rfl
  rw [hA, hp2, hB, hp1, hM]
  rfl

/-- A `decode` call that reports `false` leaves every published output
(committed fields, last-fix timestamps and new-data flags) unchanged. -/
theorem decode_false_pub (s : GPSState) (c : Nat) (t : GPSState)
    (hd : decode s c = some (false, t)) : pub t = pub s := by
  unfold decode at hd
  by_cases h191 : c = 191
  · rw [if_pos h191] at hd
    simp only [Option.some.injEq, Prod.mk.injEq] at hd
    rw [← hd.2]
    rfl
  rw [if_neg h191] at hd
  by_cases h36 : c = 36 ∨ c = 64
  · rw [if_pos h36] at hd
    simp only [Option.some.injEq, Prod.mk.injEq] at hd
    rw [← hd.2]
    rfl
  rw [if_neg h36] at hd
  by_cases h20 : c = 20 ∨ c = 0 ∨ c = 32
  · rw [if_pos h20] at hd
    simp only [Option.some.injEq, Prod.mk.injEq] at hd
    rw [← hd.2]
    rfl
  rw [if_neg h20] at hd
  by_cases h44 : c = 44 ∨ c = 58 ∨ c = 42 ∨ c = 13 ∨ c = 10
  · rw [if_pos h44] at hd
    split_ifs at hd
    simp only [Option.some.injEq] at hd
    have hv : (terminatorStep (countChar s) c).1 = false := by rw [hd]
    have ht : t = (terminatorStep (countChar s) c).2 := by rw [hd]
    rw [ht, terminatorStep_false_pub (countChar s) c hv]
    exact pub_countChar s
  rw [if_neg h44] at hd
  have hordp : pub (ordinaryStep (countChar s) c).2 = pub s :=
    ((ordinaryStep_proj (countChar s) c).2.2.2.2.2.2.2.2.1).trans (pub_countChar s)
  by_cases h3 : c = 3
  · rw [if_pos h3] at hd
    cases hrd : rdTerm s.term ((s.term_offset : Int) - 1) with
    | none => rw [hrd] at hd; simp at hd
    | some p1 =>
      rw [hrd] at hd
      simp only at hd
      split_ifs at hd with hg
      · cases hrd2 : rdTerm s.term ((s.term_offset : Int) - 2) with
        | none => rw [hrd2] at hd; simp at hd
        | some p2 =>
          cases hrd3 : rdTerm s.term ((s.term_offset : Int) - 3) with
          | none => rw [hrd2, hrd3] at hd; simp at hd
          | some p3 =>
            rw [hrd2, hrd3] at hd
            simp only at hd
            split_ifs at hd
            · simp only [Option.some.injEq] at hd
              have hv : (trimbleCommit { countChar s with
                  sum := s.sum - (p1 : Int) - (p2 : Int) - (p3 : Int) }).1 = false := by
                rw [hd]
              have ht : t = (trimbleCommit { countChar s with
                  sum := s.sum - (p1 : Int) - (p2 : Int) - (p3 : Int) }).2 := by
                rw [hd]
              have hflags := trimbleCommit_false_pub { countChar s with
                sum := s.sum - (p1 : Int) - (p2 : Int) - (p3 : Int) } hg.2 hv
              rw [ht, hflags]
              rfl
            · simp only [Option.some.injEq, Prod.mk.injEq] at hd
              rw [← hd.2]
              rfl
      · simp only [Option.some.injEq] at hd
        have ht : t = (ordinaryStep (countChar s) c).2 := by rw [hd]
        rw [ht]
        exact hordp
  rw [if_neg h3] at hd
  simp only [Option.some.injEq] at hd
  have ht : t = (ordinaryStep (countChar s) c).2 := by rw [hd]
  rw [ht]
  exact hordp

/-- C8: the per-type new-data flags are consume-once: a successful
commit of a sentence type sets that type's flag; each `got_new_*_data`
accessor returns the current flag and clears it, so a set flag reads
`true` once and `false` on the immediately following read; and a
`decode` call that returns `false` never changes any flag, so the flag
can only become `true` again through another successful commit. -/
theorem C8_consume_once_flags :
    (∀ s t : GPSState, parse_term s = (true, t) →
      (s.sentence_type = GGA → t.new_GGA_data = true) ∧
      (s.sentence_type = VTG → t.new_VTG_data = true) ∧
      (s.sentence_type = XTE ∨ s.sentence_type = XTE2 → t.new_XTE_data = true)) ∧
    (∀ s : GPSState,
      (got_new_GGA_data s).1 = s.new_GGA_data ∧
      (got_new_GGA_data s).2.new_GGA_data = false ∧
      (got_new_VTG_data s).1 = s.new_VTG_data ∧
      (got_new_VTG_data s).2.new_VTG_data = false ∧
      (got_new_XTE_data s).1 = s.new_XTE_data ∧
      (got_new_XTE_data s).2.new_XTE_data = false) ∧
    (∀ s : GPSState, s.new_GGA_data = true →
      (got_new_GGA_data s).1 = true ∧
      (got_new_GGA_data (got_new_GGA_data s).2).1 = false) ∧
    (∀ (s : GPSState) (c : Nat) (t : GPSState), decode s c = some (false, t) →
      t.new_GGA_data = s.new_GGA_data ∧ t.new_VTG_data = s.new_VTG_data ∧
      t.new_XTE_data = s.new_XTE_data) := by
  refine ⟨?_, ?_, ?_, ?_⟩
  · intro s t h
    obtain ⟨-, -, hg, hv, hx, hx2, -⟩ := parse_term_commit s t h
    refine ⟨?_, ?_, ?_⟩
    · intro hst
      rw [hg hst]
    · intro hst
      rw [hv hst]
    · rintro (hst | hst)
      · rw [hx hst]
      · rw [hx2 hst]
  · intro s
    exact ⟨rfl, rfl, rfl, rfl, rfl, rfl⟩
  · intro s h
    constructor
    · rw [show (got_new_GGA_data s).1 = s.new_GGA_data from rfl, h]
    · rfl
  · intro s c t hd
    have hp := decode_false_pub s c t hd
    exact ⟨congrArg Pub.new_GGA_data hp, congrArg Pub.new_VTG_data hp,
           congrArg Pub.new_XTE_data hp⟩

theorem C8_flags_witness :
    (got_new_GGA_data { initState with new_GGA_data := true }).1 = true ∧
    (got_new_GGA_data
      (got_new_GGA_data { initState with new_GGA_data := true }).2).1 = false := by
  obtain ⟨-, -, h3, -⟩ := C8_consume_once_flags
  exact h3 { initState with new_GGA_data := true } rfl

set_option maxRecDepth 20000 in
set_option maxHeartbeats 4000000 in
/-- C9: a successful commit touches only its own sentence type's
published group — a GGA commit leaves course, speed, xte, date, the
VTG/XTE timestamps and flags unchanged; a VTG commit leaves the GGA
group and xte unchanged; an XTE/XTE2 commit leaves the GGA and VTG
groups unchanged — and concretely, flipping the hemisphere letter of a
valid GGA sentence from `N` to `S` (with the checksum token
recomputed) negates the published latitude while every other published
field and every per-byte return value is identical to the `N` run. -/
theorem C9_commit_frame_and_hemisphere :
    (∀ s t : GPSState, parse_term s = (true, t) →
      (s.sentence_type = GGA →
        t.course = s.course ∧ t.speed = s.speed ∧ t.xte = s.xte ∧
        t.date = s.date ∧
        t.last_VTG_fix = s.last_VTG_fix ∧ t.last_XTE_fix = s.last_XTE_fix ∧
        t.new_VTG_data = s.new_VTG_data ∧ t.new_XTE_data = s.new_XTE_data) ∧
      (s.sentence_type = VTG →
        t.time = s.time ∧ t.date = s.date ∧ t.latitude = s.latitude ∧
        t.longitude = s.longitude ∧ t.altitude = s.altitude ∧
        t.quality = s.quality ∧ t.xte = s.xte ∧
        t.last_GGA_fix = s.last_GGA_fix ∧ t.last_XTE_fix = s.last_XTE_fix ∧
        t.new_GGA_data = s.new_GGA_data ∧ t.new_XTE_data = s.new_XTE_data) ∧
      (s.sentence_type = XTE ∨ s.sentence_type = XTE2 →
        t.time = s.time ∧ t.date = s.date ∧ t.latitude = s.latitude ∧
        t.longitude = s.longitude ∧ t.altitude = s.altitude ∧
        t.quality = s.quality ∧ t.course = s.course ∧ t.speed = s.speed ∧
        t.last_GGA_fix = s.last_GGA_fix ∧ t.last_VTG_fix = s.last_VTG_fix ∧
        t.new_GGA_data = s.new_GGA_data ∧ t.new_VTG_data = s.new_VTG_data)) ∧
    (feedAll initState ggaSentenceN).map (fun r => (r.1, pub r.2)) =
      some (ggaOuts, ggaPubN) ∧
    (feedAll initState ggaSentenceS).map (fun r => (r.1, pub r.2)) =
      some (ggaOuts, { ggaPubN with latitude := -ggaPubN.latitude }) := by
  refine ⟨?_, ?_, ?_⟩
  · intro s t h
    obtain ⟨-, -, hg, hv, hx, hx2, -⟩ := parse_term_commit s t h
    refine ⟨?_, ?_, ?_⟩
    · intro hst
      rw [hg hst]
      exact ⟨rfl, rfl, rfl, rfl, rfl, rfl, rfl, rfl⟩
    · intro hst
      rw [hv hst]
      exact ⟨rfl, rfl, rfl, rfl, rfl, rfl, rfl, rfl, rfl, rfl, rfl⟩
    · rintro (hst | hst)
      · rw [hx hst]
        exact ⟨rfl, rfl, rfl, rfl, rfl, rfl, rfl, rfl, rfl, rfl, rfl, rfl⟩
      · rw [hx2 hst]
        exact ⟨rfl, rfl, rfl, rfl, rfl, rfl, rfl, rfl, rfl, rfl, rfl, rfl⟩
  · rfl
  · rfl

theorem C9_frame_witness :
    (parse_term { initState with is_checksum_term := true, sentence_type := XTE2 }).2.time =
      ({ initState with is_checksum_term := true, sentence_type := XTE2 } : GPSState).time :=
  ((C9_commit_frame_and_hemisphere.1
      { initState with is_checksum_term := true, sentence_type := XTE2 }
      (parse_term { initState with is_checksum_term := true, sentence_type := XTE2 }).2
      rfl).2.2 (Or.inr rfl)).1

/-- C10: refuted — the binary-frame-terminator branch of `decode` is
reachable with `term_offset < 3`. Feeding the single byte 3 from the
initial state (where `term_offset = 0`) reaches the branch that reads
`term[term_offset - 1]`, i.e. `term[-1]`, an out-of-bounds read, which
the embedding models as `rdTerm` returning `none` and hence `decode`
returning `none`. -/
theorem C10_oob_read_reachable :
    initState.term_offset = 0 ∧ feedAll initState [3] = none :=
  ⟨rfl, rfl⟩
